import Mathlib

/-!
Verification development for the smart-spend-ai expense tracker.

The TypeScript sources are shallowly embedded:
* monetary amounts are exact rationals (`ℚ`); the code's IEEE doubles are
  modelled exactly, which agrees with the source on every comparison the
  claims exercise;
* JavaScript `Date` values are calendar dates `DateD` (year/month/day);
  epoch-day arithmetic replaces millisecond timestamps;
* ISO date strings are produced by explicit padding functions, and the
  source's `date.startsWith(currentMonthStr)` prefix test on canonical ISO
  strings is modelled as year/month equality;
* fallible parses return `Option`; the JavaScript distinction between
  `null` and `undefined`, where the source depends on it, is kept via a
  dedicated three-state type;
* display-only message strings of alerts (built with `toLocaleString`)
  are presentation and are not modelled; alert `id`, `type` and `title`
  are embedded exactly.
-/

namespace SmartSpend

/-! ## Character classes (ASCII fragment of the JS regex classes) -/

/-- JS regex `\d` (= `[0-9]`). -/
def isDigitC (c : Char) : Bool := c.isDigit

/-- JS regex `\w` (= `[A-Za-z0-9_]`, no Unicode flag). -/
def isWordC (c : Char) : Bool := c.isAlphanum || c = '_'

/-- JS regex `\s` / `String.prototype.trim` whitespace (ASCII part). -/
def isSpaceC (c : Char) : Bool :=
  c = ' ' || c = '\t' || c = '\n' || c = '\r' || c = '\x0b' || c = '\x0c'

/-- ASCII case mapping of `String.prototype.toLowerCase` (explicit table,
so that its interaction with the character classes is provable by cases). -/
def lowerChar (c : Char) : Char :=
  match c with
  | 'A' => 'a' | 'B' => 'b' | 'C' => 'c' | 'D' => 'd' | 'E' => 'e' | 'F' => 'f'
  | 'G' => 'g' | 'H' => 'h' | 'I' => 'i' | 'J' => 'j' | 'K' => 'k' | 'L' => 'l'
  | 'M' => 'm' | 'N' => 'n' | 'O' => 'o' | 'P' => 'p' | 'Q' => 'q' | 'R' => 'r'
  | 'S' => 's' | 'T' => 't' | 'U' => 'u' | 'V' => 'v' | 'W' => 'w' | 'X' => 'x'
  | 'Y' => 'y' | 'Z' => 'z'
  | c => c

/-- ASCII case mapping of `String.prototype.toUpperCase` (used on one char). -/
def upperChar (c : Char) : Char :=
  if 'a' ≤ c && c ≤ 'z' then Char.ofNat (c.toNat - 32) else c

/-- `text.toLowerCase()` on the character list. -/
def lowAll (l : List Char) : List Char := l.map lowerChar

/-- `String.prototype.trim`. -/
def trimL (l : List Char) : List Char :=
  ((l.dropWhile isSpaceC).reverse.dropWhile isSpaceC).reverse

/-- `text.split(/,|\n/)` (always returns at least one chunk). -/
def splitChunks : List Char → List (List Char)
  | [] => [[]]
  | c :: rest =>
    if c = ',' || c = '\n' then [] :: splitChunks rest
    else
      match splitChunks rest with
      | ch :: chs => (c :: ch) :: chs
      | [] => [[c]]

/-- `hay.includes(needle)` on character lists. -/
def containsSub (needle : List Char) : List Char → Bool
  | [] => needle.isEmpty
  | c :: rest => needle.isPrefixOf (c :: rest) || containsSub needle rest

/-- `text.replace(pat, "")` for a literal string pattern: remove the first
occurrence, no-op when absent. -/
def removeFirst (pat : List Char) : List Char → List Char
  | [] => []
  | c :: rest =>
    if pat.isPrefixOf (c :: rest) then (c :: rest).drop pat.length
    else c :: removeFirst pat rest

/-! ## Calendar dates

`DateD` stands for the calendar date held by a JS `Date` (local midnight);
`toEpochDay` / `fromEpochDay` are the standard civil-calendar conversions.
-/

structure DateD where
  year : Int
  month : Int
  day : Int
deriving DecidableEq, Repr

/-- Days since 1970-01-01 of a civil date (Gregorian, proleptic). -/
def toEpochDay (dt : DateD) : Int :=
  let y := if dt.month ≤ 2 then dt.year - 1 else dt.year
  let era := y / 400
  let yoe := y - era * 400
  let mp := (dt.month + 9) % 12
  let doy := (153 * mp + 2) / 5 + dt.day - 1
  let doe := yoe * 365 + yoe / 4 - yoe / 100 + doy
  era * 146097 + doe - 719468

/-- Civil date of an epoch-day number (inverse of `toEpochDay`). -/
def fromEpochDay (z : Int) : DateD :=
  let z' := z + 719468
  let era := z' / 146097
  let doe := z' - era * 146097
  let yoe := (doe - doe / 1460 + doe / 36524 - doe / 146096) / 365
  let y := yoe + era * 400
  let doy := doe - (365 * yoe + yoe / 4 - yoe / 100)
  let mp := (5 * doy + 2) / 153
  let d := doy - (153 * mp + 2) / 5 + 1
  let m := if mp < 10 then mp + 3 else mp - 9
  ⟨if m ≤ 2 then y + 1 else y, m, d⟩

/-- ISO day of week, Monday = 1 … Sunday = 7 (the source's `getDay() || 7`). -/
def isoDow (dt : DateD) : Int := (toEpochDay dt + 3) % 7 + 1

/-- Epoch day of the Monday starting the week of `dt`.  `isSameWeek` in
`src/utils/date.ts` normalises both dates to their Monday and compares. -/
def mondayEpoch (dt : DateD) : Int := toEpochDay dt - (isoDow dt - 1)

/-- `isSameWeek` from `src/utils/date.ts`. -/
def isSameWeek (d1 d2 : DateD) : Bool := mondayEpoch d1 == mondayEpoch d2

/-- Epoch day of the Thursday of `dt`'s ISO week. -/
def isoThursday (dt : DateD) : Int := toEpochDay dt + (4 - isoDow dt)

/-- ISO week-based year: the calendar year containing the week's Thursday. -/
def isoWeekYear (dt : DateD) : Int :=
  if toEpochDay ⟨dt.year + 1, 1, 1⟩ ≤ isoThursday dt then dt.year + 1
  else if isoThursday dt < toEpochDay ⟨dt.year, 1, 1⟩ then dt.year - 1
  else dt.year

/-- ISO-8601 week number (`getISOWeek` of date-fns). -/
def getISOWeek (dt : DateD) : Int :=
  (isoThursday dt - toEpochDay ⟨isoWeekYear dt, 1, 1⟩) / 7 + 1

/-- `TimeService.getCurrentWeekId`: `` `${getYear(date)}-W${getISOWeek(date)}` ``.
Note the year component is `getYear` — the calendar year, not the ISO
week-based year. -/
def getCurrentWeekId (dt : DateD) : String :=
  toString dt.year ++ "-W" ++ toString (getISOWeek dt)

/-- Zero-pad to two digits (date-fns format `MM`). -/
def pad2 (n : Int) : String :=
  if n < 10 then "0" ++ toString n else toString n

/-- Zero-pad to four digits (date-fns format `yyyy`). -/
def pad4 (n : Int) : String :=
  if n < 10 then "000" ++ toString n
  else if n < 100 then "00" ++ toString n
  else if n < 1000 then "0" ++ toString n
  else toString n

/-- `TimeService.getCurrentMonthId`: `format(date, 'yyyy-MM')`. -/
def getCurrentMonthId (dt : DateD) : String := pad4 dt.year ++ "-" ++ pad2 dt.month

/-- `now.toISOString().split('T')[0]` — the date part of the ISO string. -/
def isoDateStr (dt : DateD) : String :=
  pad4 dt.year ++ "-" ++ pad2 dt.month ++ "-" ++ pad2 dt.day

/-! ## Data model (`src/types.ts`) -/

inductive TransactionCategory where
  | Groceries | Outings | BodyCare | Orders | Miscellaneous
  | Petrol | Bills | Savings | Other
deriving DecidableEq, Repr, Fintype

open TransactionCategory

/-- The literal string of each category (the TS union is a string union). -/
def catName : TransactionCategory → String
  | Groceries => "Groceries"
  | Outings => "Outings"
  | BodyCare => "BodyCare"
  | Orders => "Orders"
  | Miscellaneous => "Miscellaneous"
  | Petrol => "Petrol"
  | Bills => "Bills"
  | Savings => "Savings"
  | Other => "Other"

inductive BudgetBucket where
  | Weekly | Monthly | SavingsB
deriving DecidableEq, Repr

/-- `CATEGORY_BUCKET_MAP` from `src/types.ts`. -/
def CATEGORY_BUCKET_MAP : TransactionCategory → BudgetBucket
  | Groceries => .Weekly
  | Outings => .Weekly
  | BodyCare => .Weekly
  | Orders => .Weekly
  | Miscellaneous => .Weekly
  | Petrol => .Weekly
  | Other => .Weekly
  | Bills => .Monthly
  | Savings => .SavingsB

structure Transaction where
  id : String
  amount : ℚ
  category : TransactionCategory
  description : String
  date : DateD
  timestamp : Int
deriving DecidableEq, Repr

structure BudgetAllocations where
  weeklyLimit : ℚ
  monthlyLimit : ℚ
  savingsTarget : ℚ
  /-- `Partial<Record<TransactionCategory, number>>`, embedded as an
  association list (a JS object has at most one entry per key; the
  `BudgetSetup` flow leaves the field absent, embedded as `[]`). -/
  weeklyCategoryLimits : List (TransactionCategory × ℚ)
deriving DecidableEq, Repr

structure BudgetState where
  monthlyIncome : ℚ
  allocations : BudgetAllocations
  isSet : Bool
deriving DecidableEq, Repr

/-- `categoryLimits[cat]` on the association list. -/
def catLimitLookup (l : List (TransactionCategory × ℚ)) (c : TransactionCategory) :
    Option ℚ :=
  (l.find? (fun p => decide (p.1 = c))).map (·.2)

structure ParsedExpense where
  amount : Option ℚ
  category : Option TransactionCategory
  description : String
  date : DateD
deriving DecidableEq, Repr

inductive AlertType where
  | success | warning | critical
deriving DecidableEq, Repr

structure AlertItem where
  id : String
  type : AlertType
  title : String
deriving DecidableEq, Repr

/-! ## Heuristic parser (`src/utils/parser.ts`)

The amount regex
`/(?:rs\.?|₹)?\s*(\d+(?:,\d+)*(?:\.\d{1,2})?)\b/i`
is embedded as an explicit backtracking matcher over character lists,
following the JS engine's leftmost-match, alternation-order and greedy
semantics.  `scanMatch` returns the full matched string (used for the
description cleanup) together with capture group 1 (the numeral).
-/

/-- `\b` placed after a word character: end of input or a non-word char. -/
def nextBoundary : List Char → Bool
  | [] => true
  | c :: _ => !isWordC c

/-- Greedy `(?:,\d+)*`, as a single structural pass: `cgInside` extends the
current group (held reversed in `acc`) while digits continue, starts a new
group on `,`+digit, and otherwise closes the group and returns the
remainder.  Within a group the digit run is maximal (a shorter run is
never viable, since the following char would be a digit, on which every
continuation of the pattern fails). -/
def cgInside (acc : List Char) : List Char → List (List Char) × List Char
  | [] => ([acc.reverse], [])
  | c :: rest =>
    if isDigitC c then cgInside (c :: acc) rest
    else if c = ',' then
      match rest with
      | d :: rest2 =>
        if isDigitC d then
          let p := cgInside [d, ','] rest2
          (acc.reverse :: p.1, p.2)
        else ([acc.reverse], ',' :: d :: rest2)
      | [] => ([acc.reverse], [','])
    else ([acc.reverse], c :: rest)

/-- The list of groups consumed by `(?:,\d+)*` and the remainder. -/
def commaGroups : List Char → List (List Char) × List Char
  | ',' :: c :: rest =>
    if isDigitC c then cgInside [c, ','] rest
    else ([], ',' :: c :: rest)
  | l => ([], l)

/-- Greedy `(?:\.\d{1,2})?` followed by the `\b` check.  Backtracking from
two fractional digits to one is never viable (the boundary before the
second digit always fails), so only the paths actually reachable in the JS
engine appear. -/
def tryDecimals : List Char → Option (List Char × List Char)
  | '.' :: d1 :: rest =>
    if isDigitC d1 then
      match rest with
      | d2 :: rest2 =>
        if isDigitC d2 then
          if nextBoundary rest2 then some (['.', d1, d2], rest2) else none
        else if nextBoundary rest then some (['.', d1], rest) else none
      | [] => some (['.', d1], [])
    else none
  | _ => none

/-- `(\d+(?:,\d+)*(?:\.\d{1,2})?)\b` at the current position: the numeral
(capture group 1) and the remainder after it.  When the `\b` after the
last comma group fails, the engine backtracks by releasing that final
group (after which the boundary at the reexposed `,` always holds). -/
def matchBodyAt (l : List Char) : Option (List Char × List Char) :=
  match l with
  | [] => none
  | c :: rest =>
    if isDigitC c then
      let run := (c :: rest).takeWhile isDigitC
      let r1 := (c :: rest).dropWhile isDigitC
      let p := commaGroups r1
      match tryDecimals p.2 with
      | some q => some (run ++ p.1.flatten ++ q.1, q.2)
      | none =>
        if nextBoundary p.2 then some (run ++ p.1.flatten, p.2)
        else
          match p.1 with
          | [] => none
          | g :: gs => some (run ++ ((g :: gs).dropLast).flatten,
              (g :: gs).getLast (by simp) ++ p.2)
    else none

/-- One alternative of `(?:rs\.?|₹)?` (as the literal `pre`) followed by
`\s*` and the numeral body.  Returns (full matched string, numeral). -/
def tryWithPrefix (pre l : List Char) : Option (List Char × List Char) :=
  if pre.isPrefixOf l then
    let after := l.drop pre.length
    let sp := after.takeWhile isSpaceC
    let body := after.dropWhile isSpaceC
    match matchBodyAt body with
    | some q => some (pre ++ sp ++ q.1, q.1)
    | none => none
  else none

/-- The whole pattern at one position; alternation order `rs.`, `rs`, `₹`,
empty prefix, as the JS engine tries it. -/
def matchAt (l : List Char) : Option (List Char × List Char) :=
  match tryWithPrefix ['r', 's', '.'] l with
  | some r => some r
  | none =>
    match tryWithPrefix ['r', 's'] l with
    | some r => some r
    | none =>
      match tryWithPrefix ['₹'] l with
      | some r => some r
      | none => tryWithPrefix [] l

/-- `lowerText.match(amountRegex)`: leftmost match. -/
def scanMatch : List Char → Option (List Char × List Char)
  | [] => none
  | c :: rest =>
    match matchAt (c :: rest) with
    | some r => some r
    | none => scanMatch rest

/-- Specification predicate for the matcher analysis: the list contains a
digit immediately followed by a word boundary (end of input or a non-word
character).  The amount regex has a match on a text iff this holds. -/
def hasDB : List Char → Bool
  | [] => false
  | c :: rest => (isDigitC c && nextBoundary rest) || hasDB rest

/-- `parseFloat(numeral.replace(/,/g, ''))` for a matched numeral (digits,
commas, at most one dot followed by 1–2 digits). -/
def digitsToNat (l : List Char) : Nat :=
  l.foldl (fun n c => 10 * n + (c.toNat - 48)) 0

def ratOfNumeral (numeral : List Char) : ℚ :=
  let noCommas := numeral.filter (fun c => !(c == ','))
  let intPart := noCommas.takeWhile (fun c => !(c == '.'))
  let fracPart := (noCommas.dropWhile (fun c => !(c == '.'))).drop 1
  (digitsToNat intPart : ℚ) + (digitsToNat fracPart : ℚ) / ((10 : ℚ) ^ fracPart.length)

/-- The keyword table of `parseExpenseInput`, in source (insertion) order. -/
def keywordTable : List (TransactionCategory × List String) := [
  (Groceries, ["groceries", "grocery", "vegetables", "fruits", "milk", "bread",
    "market", "supermarket", "food", "ration"]),
  (Outings, ["outings", "outing", "restaurant", "cafe", "coffee", "tea", "dinner",
    "lunch", "breakfast", "movie", "cinema", "concert", "uber", "ola", "cab",
    "taxi", "hotel", "trip", "party", "fun"]),
  (BodyCare, ["body care", "bodycare", "personal care", "salon", "spa", "haircut",
    "gym", "medicine", "pharmacy", "doctor", "hospital", "cream", "soap",
    "shampoo", "conditioner", "lotion", "face wash", "skincare", "makeup",
    "cosmetics", "medical", "health", "toothbrush", "paste"]),
  (Orders, ["orders", "order", "amazon", "flipkart", "meesho", "myntra", "zomato",
    "swiggy", "blinkit", "zepto", "online", "delivery"]),
  (Petrol, ["petrol", "diesel", "fuel", "gas", "shell", "hp", "station", "pump"]),
  (Miscellaneous, ["miscellaneous", "misc", "gift", "donation", "other", "random"]),
  (Bills, ["bills", "bill", "electricity", "rent", "wifi", "internet", "recharge",
    "subscription", "mobile", "water", "fee", "utility"]),
  (Savings, ["save", "savings", "invest", "mutual fund", "sip", "deposit"]),
  (Other, [])]

/-- Whether category `c`'s keyword list matches the (lowercased) text. -/
def catMatches (c : TransactionCategory) (lower : List Char) : Bool :=
  ((keywordTable.find? (fun p => decide (p.1 = c))).map (·.2)).getD [] |>.any
    (fun w => containsSub w.data lower)

/-- The `for … break` loop over `Object.entries(keywords)`: the first
category whose keyword list matches. -/
def firstKeywordCat (lower : List Char) : Option TransactionCategory :=
  (keywordTable.find? (fun p => p.2.any (fun w => containsSub w.data lower))).map (·.1)

/-- `parseExpenseInput` from `src/utils/parser.ts`.  The source's implicit
`new Date()` is the explicit `now` parameter. -/
def parseExpenseInput (text : String) (now : DateD) : ParsedExpense :=
  let lowerText := lowAll text.data
  let amountMatch := scanMatch lowerText
  let amount : Option ℚ := amountMatch.map (fun m => ratOfNumeral m.2)
  -- `if (!category && amount) category = 'Miscellaneous'`: JS truthiness,
  -- so a parsed amount of 0 does not trigger the Miscellaneous default.
  let category : Option TransactionCategory :=
    match firstKeywordCat lowerText, amount with
    | some c, _ => some c
    | none, some a => if a = 0 then none else some Miscellaneous
    | none, none => none
  let date : DateD :=
    if containsSub "yesterday".data lowerText then fromEpochDay (toEpochDay now - 1)
    else now
  -- `description.replace(amountMatch[0], '').trim()`; the pattern comes from
  -- the lowercased text, the replacement runs on the original text.
  let desc1 : List Char :=
    match amountMatch with
    | some m => trimL (removeFirst m.1 text.data)
    | none => text.data
  let desc2 : List Char :=
    if desc1.length = 0 then
      match category with
      | some c => (catName c ++ " expense").data
      | none => "Expense".data
    else desc1
  let descF : List Char :=
    match desc2 with
    | [] => []
    | c :: rest => upperChar c :: rest
  { amount := amount, category := category, description := String.mk descF, date := date }

/-- `parseMultipleExpenses` from `src/utils/parser.ts`. -/
def parseMultipleExpenses (text : String) (now : DateD) : List ParsedExpense :=
  let chunks := ((splitChunks text.data).map trimL).filter (fun c => decide (0 < c.length))
  let results := (chunks.map (fun c => parseExpenseInput (String.mk c) now)).filter
    (fun item => item.amount.isSome)
  if results.isEmpty then
    let single := parseExpenseInput text now
    -- `return single.amount ? [single] : []` — JS truthiness again: a parsed
    -- amount of 0 yields the empty list here.
    match single.amount with
    | some a => if a = 0 then [] else [single]
    | none => []
  else results

/-! ## Budget/alert engine (`src/utils/alerts.ts` — `generateAlerts`)

The engine reads the clock once (`new Date()`), here the explicit `now`.
Alert `message` strings are display-only interpolations and are not
modelled; `id`, `type` and `title` are embedded exactly.
-/

/-- Weekly-bucket spend: current ISO week and bucket `Weekly`. -/
def weeklyBucketTotal (txs : List Transaction) (now : DateD) : ℚ :=
  (txs.filter (fun t => isSameWeek t.date now &&
      decide (CATEGORY_BUCKET_MAP t.category = BudgetBucket.Weekly))).foldl
    (fun sum t => sum + t.amount) 0

/-- `t.date.startsWith(currentMonthStr)` on canonical ISO date strings:
equal year and month. -/
def inCurrentMonth (td now : DateD) : Bool :=
  td.year == now.year && td.month == now.month

/-- Monthly-bucket spend: current calendar month and bucket `Monthly`. -/
def monthlyBucketTotal (txs : List Transaction) (now : DateD) : ℚ :=
  (txs.filter (fun t => inCurrentMonth t.date now &&
      decide (CATEGORY_BUCKET_MAP t.category = BudgetBucket.Monthly))).foldl
    (fun sum t => sum + t.amount) 0

/-- `transactions.reduce((sum, t) => sum + t.amount, 0)` — all time. -/
def totalSpentAll (txs : List Transaction) : ℚ :=
  txs.foldl (fun sum t => sum + t.amount) 0

/-- `currentSavings = budget.monthlyIncome - totalSpentAll` (all-time). -/
def currentSavings (b : BudgetState) (txs : List Transaction) : ℚ :=
  b.monthlyIncome - totalSpentAll txs

/-- Per-category weekly spend (current ISO week, that category). -/
def catWeeklySpent (txs : List Transaction) (now : DateD) (cat : TransactionCategory) : ℚ :=
  (txs.filter (fun t => isSameWeek t.date now && decide (t.category = cat))).foldl
    (fun sum t => sum + t.amount) 0

/-- The `weeklyLimit` block of `generateAlerts`. -/
def weeklyAlerts (b : BudgetState) (txs : List Transaction) (now : DateD) : List AlertItem :=
  if b.allocations.weeklyLimit > 0 then
    if weeklyBucketTotal txs now > b.allocations.weeklyLimit then
      [⟨"weekly-critical-" ++ isoDateStr now, .critical, "Weekly Limit Exceeded"⟩]
    else if weeklyBucketTotal txs now ≥ b.allocations.weeklyLimit * 0.8 then
      [⟨"weekly-warning-" ++ isoDateStr now, .warning, "Approaching Weekly Limit"⟩]
    else []
  else []

/-- Iteration order of the `Object.keys(categoryLimits)` loop; a JS object
iterates its keys in insertion order, which is not statically known, so the
canonical enum order stands in for it (no claim depends on the relative
order of the per-category alerts). -/
def categoriesOrder : List TransactionCategory :=
  [Groceries, Outings, BodyCare, Orders, Miscellaneous, Petrol, Bills, Savings, Other]

/-- One step of the per-category limit loop: `categoryLimits[cat] || 0`,
skip when `limit <= 0`, then the critical/warning thresholds. -/
def catAlertFor (b : BudgetState) (txs : List Transaction) (now : DateD)
    (cat : TransactionCategory) : List AlertItem :=
  let limit := (catLimitLookup b.allocations.weeklyCategoryLimits cat).getD 0
  if limit ≤ 0 then []
  else if catWeeklySpent txs now cat > limit then
    [⟨"weekly-cat-critical-" ++ catName cat ++ "-" ++ isoDateStr now, .critical,
      catName cat ++ " Limit Exceeded"⟩]
  else if catWeeklySpent txs now cat ≥ limit * 0.8 then
    [⟨"weekly-cat-warning-" ++ catName cat ++ "-" ++ isoDateStr now, .warning,
      catName cat ++ " Budget Low"⟩]
  else []

/-- The whole per-category limits loop. -/
def categoryAlerts (b : BudgetState) (txs : List Transaction) (now : DateD) : List AlertItem :=
  categoriesOrder.flatMap (catAlertFor b txs now)

/-- The `monthlyLimit` block (`currentMonthStr` is the 7-char ISO prefix,
i.e. `getCurrentMonthId now`). -/
def monthlyAlerts (b : BudgetState) (txs : List Transaction) (now : DateD) : List AlertItem :=
  if b.allocations.monthlyLimit > 0 then
    if monthlyBucketTotal txs now > b.allocations.monthlyLimit then
      [⟨"monthly-critical-" ++ getCurrentMonthId now, .critical,
        "Monthly Expense Limit Exceeded"⟩]
    else if monthlyBucketTotal txs now ≥ b.allocations.monthlyLimit * 0.8 then
      [⟨"monthly-warning-" ++ getCurrentMonthId now, .warning,
        "Approaching Monthly Expense Limit"⟩]
    else []
  else []

/-- The `savingsTarget` block: one `success` or one `warning` alert. -/
def savingsAlerts (b : BudgetState) (txs : List Transaction) (now : DateD) : List AlertItem :=
  if b.allocations.savingsTarget > 0 then
    if currentSavings b txs ≥ b.allocations.savingsTarget then
      [⟨"savings-success-" ++ getCurrentMonthId now, .success, "Savings Goal Reached! 🎉"⟩]
    else
      [⟨"savings-warning-" ++ getCurrentMonthId now, .warning, "Savings Below Goal"⟩]
  else []

/-- `generateAlerts(budget, transactions)`: the pushes happen in source
order weekly → per-category → monthly → savings. -/
def generateAlerts (b : BudgetState) (txs : List Transaction) (now : DateD) : List AlertItem :=
  weeklyAlerts b txs now ++ categoryAlerts b txs now ++
    monthlyAlerts b txs now ++ savingsAlerts b txs now

/-- The alert list contains an alert of the given severity and title. -/
def hasAlert (alerts : List AlertItem) (ty : AlertType) (ti : String) : Bool :=
  alerts.any (fun a => decide (a.type = ty) && decide (a.title = ti))

/-- How many alerts carry one of the given titles. -/
def countTitled (alerts : List AlertItem) (titles : List String) : Nat :=
  (alerts.filter (fun a => titles.any (fun ti => decide (a.title = ti)))).length

/-! ## Dashboard figures and budget edits (`Dashboard`, `BudgetSetup`) -/

/-- The Dashboard's `monthlyBucketSpent`: bucket filter only — the whole
transaction history, with no current-month restriction. -/
def dashboardMonthlySpent (txs : List Transaction) : ℚ :=
  (txs.filter (fun t => decide (CATEGORY_BUCKET_MAP t.category = BudgetBucket.Monthly))).foldl
    (fun sum t => sum + t.amount) 0

/-- The Dashboard's `remainingTotal = monthlyIncome - totalSpent`. -/
def remainingTotal (b : BudgetState) (txs : List Transaction) : ℚ :=
  b.monthlyIncome - totalSpentAll txs

inductive EditKey where
  | Weekly | Monthly | SavingsE
deriving DecidableEq, Repr

/-- The Dashboard's `handleSaveEdit`.  `val` is the `parseFloat(editValue)`
result, `none` standing for `NaN`.  A savings edit above the income is
rejected (alert + revert); an invalid or negative value only closes the
editor. -/
def handleSaveEdit (b : BudgetState) (editing : EditKey) (val : Option ℚ) : BudgetState :=
  match val with
  | none => b
  | some v =>
    if v ≥ 0 then
      if editing = .SavingsE ∧ v > b.monthlyIncome then b
      else
        { b with allocations :=
            match editing with
            | .Weekly => { b.allocations with weeklyLimit := v }
            | .Monthly => { b.allocations with monthlyLimit := v }
            | .SavingsE => { b.allocations with savingsTarget := v } }
    else b

/-- `BudgetSetup.handleSubmit`: `incomeNum = parseFloat(income) || 0`,
`isValid = incomeNum > 0 && weeklyLimit > 0`, and on a valid submit the
allocations are passed through unchecked (no savings-vs-income guard).
`none` = completion did not fire. -/
def budgetSetupSubmit (income : Option ℚ)
    (weeklyLimit monthlyLimit savingsTarget : ℚ) : Option BudgetState :=
  let incomeNum := income.getD 0
  if incomeNum > 0 ∧ weeklyLimit > 0 then
    some { monthlyIncome := incomeNum,
           allocations := { weeklyLimit := weeklyLimit, monthlyLimit := monthlyLimit,
                            savingsTarget := savingsTarget, weeklyCategoryLimits := [] },
           isSet := true }
  else none

/-! ## AI adapter (`src/utils/groq.ts` — `parseExpenseWithAI`)

Only the pure normalization of an already-parsed `expenses` array is
embedded; the network call and JSON failure paths return `[]` upstream.
`JsNum` keeps the JS distinction between an absent (`undefined`) and a
`null` amount, on which the final filter depends.
-/

inductive JsNum where
  | undef | jsNull | val (q : ℚ)
deriving DecidableEq, Repr

structure RawAIExpense where
  amount : JsNum
  /-- `none` for JS `null`/`undefined`; the empty string is also falsy. -/
  category : Option String
  description : Option String
  date : Option String
deriving DecidableEq, Repr

structure AIExpense where
  amount : JsNum
  category : TransactionCategory
  description : String
  date : Option String
deriving DecidableEq, Repr

/-- The normalization map for strict enum compliance, in source order. -/
def CATEGORY_MAP : List (String × TransactionCategory) := [
  ("Groceries", Groceries), ("Grocery", Groceries), ("Food", Groceries),
  ("Outings", Outings), ("Outing", Outings), ("Restaurant", Outings),
  ("Entertainment", Outings),
  ("BodyCare", BodyCare), ("Body Care", BodyCare), ("Personal Care", BodyCare),
  ("Health", BodyCare),
  ("Orders", Orders), ("Order", Orders), ("Shopping", Orders),
  ("Petrol", Petrol), ("Fuel", Petrol), ("Transport", Petrol),
  ("Miscellaneous", Miscellaneous), ("Misc", Miscellaneous),
  ("Bills", Bills),
  ("Savings", Savings),
  ("Other", Other)]

/-- `CATEGORY_MAP[s]`: exact (case-sensitive) key lookup. -/
def lookupCat (s : String) : Option TransactionCategory :=
  (CATEGORY_MAP.find? (fun p => p.1 == s)).map (·.2)

/-- `rawCat.replace(/\s+/g, '')`. -/
def stripSpaces (s : String) : String :=
  String.mk (s.data.filter (fun c => !isSpaceC c))

/-- `CATEGORY_MAP[rawCat] || CATEGORY_MAP[rawCat.replace(/\s+/g,'')] || 'Miscellaneous'`. -/
def normalizeCategory (rawCat : String) : TransactionCategory :=
  match lookupCat rawCat with
  | some c => c
  | none =>
    match lookupCat (stripSpaces rawCat) with
    | some c => c
    | none => Miscellaneous

/-- The `expenses.map(...).filter(...)` stage of `parseExpenseWithAI`:
note the filter is `e.amount !== null`, which keeps an absent amount. -/
def aiNormalizeItems (input : String) (expenses : List RawAIExpense) : List AIExpense :=
  (expenses.map (fun item =>
    let rawCat := match item.category with
      | some s => if s = "" then "Miscellaneous" else s
      | none => "Miscellaneous"
    { amount := item.amount,
      category := normalizeCategory rawCat,
      description := match item.description with
        | some s => if s = "" then input else s
        | none => input,
      date := item.date })).filter (fun e => decide (e.amount ≠ JsNum.jsNull))

/-- `parseExpenseWithAI` given the service's parsed `expenses` array (the
guard `!input || input.trim().length < 3` returns `[]` immediately). -/
def parseExpenseWithAI (input : String) (expenses : List RawAIExpense) : List AIExpense :=
  if (trimL input.data).length < 3 then [] else aiNormalizeItems input expenses

/-! ## Time-boundary archiver (`src/services/time.ts` — `TimeService`)

The Firestore documents touched by `init` are embedded as an explicit
store: the per-user `settings/meta` document and the `history_weeks` /
`history_months` collections (`putDoc` is `setDoc`: upsert by key).
-/

structure HistoryMeta where
  lastActiveWeek : String
  lastActiveMonth : String
deriving DecidableEq, Repr

structure WeeklyStats where
  weekId : String
  startDate : String
  endDate : String
  totalSpent : ℚ
  totalSaved : ℚ
  categoryBreakdown : TransactionCategory → ℚ
  status : String

structure MonthlyStats where
  monthId : String
  monthName : String
  totalSpent : ℚ
  totalSaved : ℚ
  categoryBreakdown : TransactionCategory → ℚ
  weeks : List WeeklyStats
  isFinalized : Bool

/-- `format(new Date(monthId + "-01"), 'MMMM yyyy')`. -/
def monthWord : String → String
  | "01" => "January" | "02" => "February" | "03" => "March" | "04" => "April"
  | "05" => "May" | "06" => "June" | "07" => "July" | "08" => "August"
  | "09" => "September" | "10" => "October" | "11" => "November" | "12" => "December"
  | _ => "Invalid Date"

def monthNameOf (monthId : String) : String :=
  monthWord (String.mk (monthId.data.drop 5)) ++ " " ++ String.mk (monthId.data.take 4)

/-- `TimeService.calculateStatsForWeekId`: Savings amounts go to
`totalSaved`, every other category to `totalSpent` + breakdown. -/
def calculateStatsForWeekId (txs : List Transaction) (weekId : String) : WeeklyStats :=
  let relevantTx := txs.filter (fun tx => getCurrentWeekId tx.date == weekId)
  relevantTx.foldl (fun stats tx =>
    if tx.category = Savings then
      { stats with totalSaved := stats.totalSaved + tx.amount }
    else
      { stats with
        totalSpent := stats.totalSpent + tx.amount,
        categoryBreakdown := fun c =>
          if c = tx.category then stats.categoryBreakdown tx.category + tx.amount
          else stats.categoryBreakdown c })
    { weekId := weekId, startDate := "", endDate := "", totalSpent := 0, totalSaved := 0,
      categoryBreakdown := fun _ => 0, status := "completed" }

/-- `TimeService.calculateStatsForMonthId`. -/
def calculateStatsForMonthId (txs : List Transaction) (monthId : String) : MonthlyStats :=
  let relevantTx := txs.filter (fun tx => getCurrentMonthId tx.date == monthId)
  relevantTx.foldl (fun stats tx =>
    if tx.category = Savings then
      { stats with totalSaved := stats.totalSaved + tx.amount }
    else
      { stats with
        totalSpent := stats.totalSpent + tx.amount,
        categoryBreakdown := fun c =>
          if c = tx.category then stats.categoryBreakdown tx.category + tx.amount
          else stats.categoryBreakdown c })
    { monthId := monthId, monthName := monthNameOf monthId, totalSpent := 0, totalSaved := 0,
      categoryBreakdown := fun _ => 0, weeks := [], isFinalized := true }

structure HistoryStore where
  meta : Option HistoryMeta
  weekSnaps : List (String × WeeklyStats)
  monthSnaps : List (String × MonthlyStats)

/-- `setDoc`: overwrite the document at `k`, creating it when absent. -/
def putDoc {α : Type} (l : List (String × α)) (k : String) (v : α) : List (String × α) :=
  if l.any (fun p => p.1 == k) then l.map (fun p => if p.1 == k then (k, v) else p)
  else l ++ [(k, v)]

/-- `TimeService.init`: first run initializes the meta document; later runs
archive the previous week/month when the respective identifier moved, then
advance the meta (`updateDoc` merges field-wise into the existing doc). -/
def timeServiceInit (store : HistoryStore) (userId : String)
    (txs : List Transaction) (now : DateD) : HistoryStore :=
  if userId = "" then store
  else
    let currentWeekId := getCurrentWeekId now
    let currentMonthId := getCurrentMonthId now
    match store.meta with
    | none => { store with meta := some ⟨currentWeekId, currentMonthId⟩ }
    | some meta =>
      let s1 :=
        if meta.lastActiveWeek = currentWeekId then store
        else
          { store with
            weekSnaps := putDoc store.weekSnaps meta.lastActiveWeek
              (calculateStatsForWeekId txs meta.lastActiveWeek),
            meta := some ⟨currentWeekId, meta.lastActiveMonth⟩ }
      if meta.lastActiveMonth = currentMonthId then s1
      else
        { s1 with
          monthSnaps := putDoc s1.monthSnaps meta.lastActiveMonth
            (calculateStatsForMonthId txs meta.lastActiveMonth),
          meta := s1.meta.map (fun m => ⟨m.lastActiveWeek, currentMonthId⟩) }

/-! ## Reference definitions taken from the spec text -/

/-- The spec's `weekIdentifier(date)`: `"{ISOYear}-W{ISOWeekNumber}"` with
the ISO week-based year.  Reference definition for claim C5 (the source's
`getCurrentWeekId` uses the calendar year instead). -/
def isoWeekIdentifierSpec (dt : DateD) : String :=
  toString (isoWeekYear dt) ++ "-W" ++ toString (getISOWeek dt)

/-- Claim C4's description of the multi-expense splitter; it differs from
the source only in keying the fallback on a non-null amount, where the
source keys it on JS truthiness. -/
def parseMultipleExpensesSpec (text : String) (now : DateD) : List ParsedExpense :=
  let chunks := ((splitChunks text.data).map trimL).filter (fun c => decide (0 < c.length))
  let results := (chunks.map (fun c => parseExpenseInput (String.mk c) now)).filter
    (fun item => item.amount.isSome)
  if results.isEmpty then
    let single := parseExpenseInput text now
    if single.amount.isSome then [single] else []
  else results

/-! ## General helper lemmas -/

theorem foldl_add_amounts (l : List Transaction) (init : ℚ) :
    l.foldl (fun sum t => sum + t.amount) init = init + (l.map (fun t => t.amount)).sum := by
  induction l generalizing init with
  | nil => simp
  | cons t ts ih => simp only [List.foldl_cons, ih, List.map_cons, List.sum_cons]; ring

theorem filter_sum_split (txs : List Transaction) (p q : Transaction → Bool) :
    ((txs.filter p).map (fun t => t.amount)).sum
      = ((txs.filter (fun t => q t && p t)).map (fun t => t.amount)).sum
        + ((txs.filter (fun t => !q t && p t)).map (fun t => t.amount)).sum := by
  induction txs with
  | nil => simp
  | cons t ts ih =>
    by_cases hq : q t <;> by_cases hp : p t <;>
      simp [List.filter_cons, hq, hp, ih] <;> ring

/-! ## Alert-segment inventory lemmas -/

theorem mem_weeklyAlerts_title {b : BudgetState} {txs : List Transaction} {now : DateD}
    {a : AlertItem} (h : a ∈ weeklyAlerts b txs now) :
    (a.type = .critical ∧ a.title = "Weekly Limit Exceeded") ∨
    (a.type = .warning ∧ a.title = "Approaching Weekly Limit") := by
  unfold weeklyAlerts at h
  split_ifs at h <;> simp_all

theorem mem_catAlertFor_title {b : BudgetState} {txs : List Transaction} {now : DateD}
    {c : TransactionCategory} {a : AlertItem} (h : a ∈ catAlertFor b txs now c) :
    (a.type = .critical ∧ a.title = catName c ++ " Limit Exceeded") ∨
    (a.type = .warning ∧ a.title = catName c ++ " Budget Low") := by
  unfold catAlertFor at h
  dsimp only at h
  split_ifs at h <;> simp_all

theorem mem_monthlyAlerts_title {b : BudgetState} {txs : List Transaction} {now : DateD}
    {a : AlertItem} (h : a ∈ monthlyAlerts b txs now) :
    (a.type = .critical ∧ a.title = "Monthly Expense Limit Exceeded") ∨
    (a.type = .warning ∧ a.title = "Approaching Monthly Expense Limit") := by
  unfold monthlyAlerts at h
  split_ifs at h <;> simp_all

theorem mem_savingsAlerts_title {b : BudgetState} {txs : List Transaction} {now : DateD}
    {a : AlertItem} (h : a ∈ savingsAlerts b txs now) :
    (a.type = .success ∧ a.title = "Savings Goal Reached! 🎉") ∨
    (a.type = .warning ∧ a.title = "Savings Below Goal") := by
  unfold savingsAlerts at h
  split_ifs at h <;> simp_all

theorem hasAlert_append (l1 l2 : List AlertItem) (ty : AlertType) (ti : String) :
    hasAlert (l1 ++ l2) ty ti = (hasAlert l1 ty ti || hasAlert l2 ty ti) :=
  List.any_append

theorem hasAlert_eq_false_of_titles {l : List AlertItem} {ty : AlertType} {ti : String}
    (h : ∀ a ∈ l, a.title ≠ ti) : hasAlert l ty ti = false := by
  rw [← Bool.not_eq_true]
  intro hmem
  obtain ⟨a, ha, hpa⟩ := List.any_eq_true.mp hmem
  simp only [Bool.and_eq_true, decide_eq_true_eq] at hpa
  exact h a ha hpa.2

theorem hasAlert_mem_iff (l : List AlertItem) (ty : AlertType) (ti : String) :
    hasAlert l ty ti = true ↔ ∃ a ∈ l, a.type = ty ∧ a.title = ti := by
  unfold hasAlert
  rw [List.any_eq_true]
  constructor
  · rintro ⟨a, ha, hpa⟩
    simp only [Bool.and_eq_true, decide_eq_true_eq] at hpa
    exact ⟨a, ha, hpa⟩
  · rintro ⟨a, ha, h1, h2⟩
    exact ⟨a, ha, by simp [h1, h2]⟩

/-- Each category appears in the iteration order of the per-category loop. -/
theorem mem_categoriesOrder (c : TransactionCategory) : c ∈ categoriesOrder := by
  cases c <;> simp [categoriesOrder]

theorem hasAlert_flatMap (l : List TransactionCategory)
    (f : TransactionCategory → List AlertItem) (ty : AlertType) (ti : String) :
    hasAlert (l.flatMap f) ty ti = l.any (fun c => hasAlert (f c) ty ti) :=
  List.any_flatMap

/-! ## Title disequality facts (all decidable) -/

theorem catTitle_ne_fixed : ∀ c : TransactionCategory,
    (catName c ++ " Limit Exceeded" ≠ "Weekly Limit Exceeded") ∧
    (catName c ++ " Limit Exceeded" ≠ "Approaching Weekly Limit") ∧
    (catName c ++ " Limit Exceeded" ≠ "Monthly Expense Limit Exceeded") ∧
    (catName c ++ " Limit Exceeded" ≠ "Approaching Monthly Expense Limit") ∧
    (catName c ++ " Limit Exceeded" ≠ "Savings Goal Reached! 🎉") ∧
    (catName c ++ " Limit Exceeded" ≠ "Savings Below Goal") ∧
    (catName c ++ " Budget Low" ≠ "Weekly Limit Exceeded") ∧
    (catName c ++ " Budget Low" ≠ "Approaching Weekly Limit") ∧
    (catName c ++ " Budget Low" ≠ "Monthly Expense Limit Exceeded") ∧
    (catName c ++ " Budget Low" ≠ "Approaching Monthly Expense Limit") ∧
    (catName c ++ " Budget Low" ≠ "Savings Goal Reached! 🎉") ∧
    (catName c ++ " Budget Low" ≠ "Savings Below Goal") := by
  decide

theorem catTitle_pair_facts : ∀ c c' : TransactionCategory,
    (c ≠ c' → catName c ++ " Limit Exceeded" ≠ catName c' ++ " Limit Exceeded") ∧
    (c ≠ c' → catName c ++ " Budget Low" ≠ catName c' ++ " Budget Low") ∧
    (catName c ++ " Limit Exceeded" ≠ catName c' ++ " Budget Low") := by
  decide

/-! ## Segment falsity helpers -/

theorem weeklyAlerts_hasAlert_false (b : BudgetState) (txs : List Transaction) (now : DateD)
    (ty : AlertType) (ti : String)
    (h1 : ti ≠ "Weekly Limit Exceeded") (h2 : ti ≠ "Approaching Weekly Limit") :
    hasAlert (weeklyAlerts b txs now) ty ti = false := by
  apply hasAlert_eq_false_of_titles
  intro a ha
  rcases mem_weeklyAlerts_title ha with ⟨_, hti⟩ | ⟨_, hti⟩ <;> rw [hti]
  · exact fun he => h1 he.symm
  · exact fun he => h2 he.symm

theorem catAlerts_hasAlert_false (b : BudgetState) (txs : List Transaction) (now : DateD)
    (ty : AlertType) (ti : String)
    (h : ∀ c : TransactionCategory,
      ti ≠ catName c ++ " Limit Exceeded" ∧ ti ≠ catName c ++ " Budget Low") :
    hasAlert (categoryAlerts b txs now) ty ti = false := by
  apply hasAlert_eq_false_of_titles
  intro a ha
  obtain ⟨c, _, hc⟩ := List.mem_flatMap.mp ha
  rcases mem_catAlertFor_title hc with ⟨_, hti⟩ | ⟨_, hti⟩ <;> rw [hti]
  · exact fun he => (h c).1 he.symm
  · exact fun he => (h c).2 he.symm

theorem monthlyAlerts_hasAlert_false (b : BudgetState) (txs : List Transaction) (now : DateD)
    (ty : AlertType) (ti : String)
    (h1 : ti ≠ "Monthly Expense Limit Exceeded")
    (h2 : ti ≠ "Approaching Monthly Expense Limit") :
    hasAlert (monthlyAlerts b txs now) ty ti = false := by
  apply hasAlert_eq_false_of_titles
  intro a ha
  rcases mem_monthlyAlerts_title ha with ⟨_, hti⟩ | ⟨_, hti⟩ <;> rw [hti]
  · exact fun he => h1 he.symm
  · exact fun he => h2 he.symm

theorem savingsAlerts_hasAlert_false (b : BudgetState) (txs : List Transaction) (now : DateD)
    (ty : AlertType) (ti : String)
    (h1 : ti ≠ "Savings Goal Reached! 🎉") (h2 : ti ≠ "Savings Below Goal") :
    hasAlert (savingsAlerts b txs now) ty ti = false := by
  apply hasAlert_eq_false_of_titles
  intro a ha
  rcases mem_savingsAlerts_title ha with ⟨_, hti⟩ | ⟨_, hti⟩ <;> rw [hti]
  · exact fun he => h1 he.symm
  · exact fun he => h2 he.symm

/-! ## Reduction of `generateAlerts` to one segment -/

theorem hasAlert_generate_to_weekly (b : BudgetState) (txs : List Transaction) (now : DateD)
    (ty : AlertType) (ti : String)
    (hB : hasAlert (categoryAlerts b txs now) ty ti = false)
    (hC : hasAlert (monthlyAlerts b txs now) ty ti = false)
    (hD : hasAlert (savingsAlerts b txs now) ty ti = false) :
    hasAlert (generateAlerts b txs now) ty ti = hasAlert (weeklyAlerts b txs now) ty ti := by
  unfold generateAlerts
  rw [hasAlert_append, hasAlert_append, hasAlert_append, hB, hC, hD]
  simp

theorem hasAlert_generate_to_cat (b : BudgetState) (txs : List Transaction) (now : DateD)
    (ty : AlertType) (ti : String)
    (hA : hasAlert (weeklyAlerts b txs now) ty ti = false)
    (hC : hasAlert (monthlyAlerts b txs now) ty ti = false)
    (hD : hasAlert (savingsAlerts b txs now) ty ti = false) :
    hasAlert (generateAlerts b txs now) ty ti = hasAlert (categoryAlerts b txs now) ty ti := by
  unfold generateAlerts
  rw [hasAlert_append, hasAlert_append, hasAlert_append, hA, hC, hD]
  simp

theorem hasAlert_generate_to_monthly (b : BudgetState) (txs : List Transaction) (now : DateD)
    (ty : AlertType) (ti : String)
    (hA : hasAlert (weeklyAlerts b txs now) ty ti = false)
    (hB : hasAlert (categoryAlerts b txs now) ty ti = false)
    (hD : hasAlert (savingsAlerts b txs now) ty ti = false) :
    hasAlert (generateAlerts b txs now) ty ti = hasAlert (monthlyAlerts b txs now) ty ti := by
  unfold generateAlerts
  rw [hasAlert_append, hasAlert_append, hasAlert_append, hA, hB, hD]
  simp

theorem hasAlert_generate_to_savings (b : BudgetState) (txs : List Transaction) (now : DateD)
    (ty : AlertType) (ti : String)
    (hA : hasAlert (weeklyAlerts b txs now) ty ti = false)
    (hB : hasAlert (categoryAlerts b txs now) ty ti = false)
    (hC : hasAlert (monthlyAlerts b txs now) ty ti = false) :
    hasAlert (generateAlerts b txs now) ty ti = hasAlert (savingsAlerts b txs now) ty ti := by
  unfold generateAlerts
  rw [hasAlert_append, hasAlert_append, hasAlert_append, hA, hB, hC]
  simp

/-! ## Per-segment threshold characterizations -/

theorem hasAlert_weeklyAlerts_crit (b : BudgetState) (txs : List Transaction) (now : DateD)
    (hL : 0 < b.allocations.weeklyLimit) :
    hasAlert (weeklyAlerts b txs now) .critical "Weekly Limit Exceeded" = true ↔
      weeklyBucketTotal txs now > b.allocations.weeklyLimit := by
  unfold weeklyAlerts
  rw [if_pos hL]
  split_ifs with h1 h2
  · simp [hasAlert, h1]
  · simp [hasAlert, h1]
  · simp [hasAlert, h1]

theorem hasAlert_weeklyAlerts_warn (b : BudgetState) (txs : List Transaction) (now : DateD)
    (hL : 0 < b.allocations.weeklyLimit) :
    hasAlert (weeklyAlerts b txs now) .warning "Approaching Weekly Limit" = true ↔
      (weeklyBucketTotal txs now ≥ b.allocations.weeklyLimit * 0.8 ∧
       ¬ weeklyBucketTotal txs now > b.allocations.weeklyLimit) := by
  unfold weeklyAlerts
  rw [if_pos hL]
  split_ifs with h1 h2
  · simp [hasAlert, h1]
  · simp [hasAlert, h1, h2]
  · simp [hasAlert, h1, h2]

theorem hasAlert_monthlyAlerts_crit (b : BudgetState) (txs : List Transaction) (now : DateD)
    (hL : 0 < b.allocations.monthlyLimit) :
    hasAlert (monthlyAlerts b txs now) .critical "Monthly Expense Limit Exceeded" = true ↔
      monthlyBucketTotal txs now > b.allocations.monthlyLimit := by
  unfold monthlyAlerts
  rw [if_pos hL]
  split_ifs with h1 h2
  · simp [hasAlert, h1]
  · simp [hasAlert, h1]
  · simp [hasAlert, h1]

theorem hasAlert_monthlyAlerts_warn (b : BudgetState) (txs : List Transaction) (now : DateD)
    (hL : 0 < b.allocations.monthlyLimit) :
    hasAlert (monthlyAlerts b txs now) .warning "Approaching Monthly Expense Limit" = true ↔
      (monthlyBucketTotal txs now ≥ b.allocations.monthlyLimit * 0.8 ∧
       ¬ monthlyBucketTotal txs now > b.allocations.monthlyLimit) := by
  unfold monthlyAlerts
  rw [if_pos hL]
  split_ifs with h1 h2
  · simp [hasAlert, h1]
  · simp [hasAlert, h1, h2]
  · simp [hasAlert, h1, h2]

theorem hasAlert_catAlertFor_crit (b : BudgetState) (txs : List Transaction) (now : DateD)
    (c : TransactionCategory) (L : ℚ)
    (hl : catLimitLookup b.allocations.weeklyCategoryLimits c = some L) (hL : 0 < L) :
    hasAlert (catAlertFor b txs now c) .critical (catName c ++ " Limit Exceeded") = true ↔
      catWeeklySpent txs now c > L := by
  unfold catAlertFor
  rw [hl]
  dsimp only [Option.getD_some]
  rw [if_neg (not_le.mpr hL)]
  split_ifs with h1 h2
  · simp [hasAlert, h1]
  · simp [hasAlert, h1]
  · simp [hasAlert, h1]

theorem hasAlert_catAlertFor_warn (b : BudgetState) (txs : List Transaction) (now : DateD)
    (c : TransactionCategory) (L : ℚ)
    (hl : catLimitLookup b.allocations.weeklyCategoryLimits c = some L) (hL : 0 < L) :
    hasAlert (catAlertFor b txs now c) .warning (catName c ++ " Budget Low") = true ↔
      (catWeeklySpent txs now c ≥ L * 0.8 ∧ ¬ catWeeklySpent txs now c > L) := by
  unfold catAlertFor
  rw [hl]
  dsimp only [Option.getD_some]
  rw [if_neg (not_le.mpr hL)]
  split_ifs with h1 h2
  · simp [hasAlert, h1]
  · simp [hasAlert, h1, h2]
  · simp [hasAlert, h1, h2]

theorem catAlertFor_hasAlert_false (b : BudgetState) (txs : List Transaction) (now : DateD)
    (c' : TransactionCategory) (ty : AlertType) (ti : String)
    (h1 : ti ≠ catName c' ++ " Limit Exceeded") (h2 : ti ≠ catName c' ++ " Budget Low") :
    hasAlert (catAlertFor b txs now c') ty ti = false := by
  apply hasAlert_eq_false_of_titles
  intro a ha
  rcases mem_catAlertFor_title ha with ⟨_, hti⟩ | ⟨_, hti⟩ <;> rw [hti]
  · exact fun he => h1 he.symm
  · exact fun he => h2 he.symm

theorem hasAlert_categoryAlerts_crit (b : BudgetState) (txs : List Transaction) (now : DateD)
    (c : TransactionCategory) (L : ℚ)
    (hl : catLimitLookup b.allocations.weeklyCategoryLimits c = some L) (hL : 0 < L) :
    hasAlert (categoryAlerts b txs now) .critical (catName c ++ " Limit Exceeded") = true ↔
      catWeeklySpent txs now c > L := by
  unfold categoryAlerts
  rw [hasAlert_flatMap, List.any_eq_true]
  constructor
  · rintro ⟨c', _, hany⟩
    by_cases hcc : c' = c
    · subst hcc
      exact (hasAlert_catAlertFor_crit b txs now c' L hl hL).mp hany
    · rw [catAlertFor_hasAlert_false b txs now c' _ _
        (fun he => ((catTitle_pair_facts c c').1 (fun hx => hcc hx.symm)) he)
        (fun he => (catTitle_pair_facts c c').2.2 he)] at hany
      cases hany
  · intro hr
    exact ⟨c, mem_categoriesOrder c,
      (hasAlert_catAlertFor_crit b txs now c L hl hL).mpr hr⟩

theorem hasAlert_categoryAlerts_warn (b : BudgetState) (txs : List Transaction) (now : DateD)
    (c : TransactionCategory) (L : ℚ)
    (hl : catLimitLookup b.allocations.weeklyCategoryLimits c = some L) (hL : 0 < L) :
    hasAlert (categoryAlerts b txs now) .warning (catName c ++ " Budget Low") = true ↔
      (catWeeklySpent txs now c ≥ L * 0.8 ∧ ¬ catWeeklySpent txs now c > L) := by
  unfold categoryAlerts
  rw [hasAlert_flatMap, List.any_eq_true]
  constructor
  · rintro ⟨c', _, hany⟩
    by_cases hcc : c' = c
    · subst hcc
      exact (hasAlert_catAlertFor_warn b txs now c' L hl hL).mp hany
    · rw [catAlertFor_hasAlert_false b txs now c' _ _
        (fun he => (catTitle_pair_facts c' c).2.2 he.symm)
        (fun he => ((catTitle_pair_facts c c').2.1 (fun hx => hcc hx.symm)) he)] at hany
      cases hany
  · intro hr
    exact ⟨c, mem_categoriesOrder c,
      (hasAlert_catAlertFor_warn b txs now c L hl hL).mpr hr⟩

theorem hasAlert_savingsAlerts_success (b : BudgetState) (txs : List Transaction) (now : DateD)
    (ht : 0 < b.allocations.savingsTarget) :
    hasAlert (savingsAlerts b txs now) .success "Savings Goal Reached! 🎉" = true ↔
      currentSavings b txs ≥ b.allocations.savingsTarget := by
  unfold savingsAlerts
  rw [if_pos ht]
  split_ifs with h1
  · simp [hasAlert, h1]
  · simp [hasAlert, h1]

theorem hasAlert_savingsAlerts_warn (b : BudgetState) (txs : List Transaction) (now : DateD)
    (ht : 0 < b.allocations.savingsTarget) :
    hasAlert (savingsAlerts b txs now) .warning "Savings Below Goal" = true ↔
      ¬ currentSavings b txs ≥ b.allocations.savingsTarget := by
  unfold savingsAlerts
  rw [if_pos ht]
  split_ifs with h1
  · simp [hasAlert, h1]
  · simp [hasAlert, h1]

/-! ## C1 — spend-limit alert thresholds -/

/-- C1: for every configured spend limit (weekly, per-category weekly,
monthly; each > 0), `generateAlerts` emits the critical alert for that
limit exactly when the corresponding spend is strictly greater than the
limit, and the warning alert exactly when the spend is at least 80% of the
limit but not strictly greater than it. -/
theorem C1_spend_limit_alert_thresholds (b : BudgetState) (txs : List Transaction)
    (now : DateD) :
    (0 < b.allocations.weeklyLimit →
      ((hasAlert (generateAlerts b txs now) .critical "Weekly Limit Exceeded" = true
          ↔ weeklyBucketTotal txs now > b.allocations.weeklyLimit) ∧
       (hasAlert (generateAlerts b txs now) .warning "Approaching Weekly Limit" = true
          ↔ (weeklyBucketTotal txs now ≥ b.allocations.weeklyLimit * 0.8 ∧
             ¬ weeklyBucketTotal txs now > b.allocations.weeklyLimit)))) ∧
    (∀ c L, catLimitLookup b.allocations.weeklyCategoryLimits c = some L → 0 < L →
      ((hasAlert (generateAlerts b txs now) .critical (catName c ++ " Limit Exceeded") = true
          ↔ catWeeklySpent txs now c > L) ∧
       (hasAlert (generateAlerts b txs now) .warning (catName c ++ " Budget Low") = true
          ↔ (catWeeklySpent txs now c ≥ L * 0.8 ∧ ¬ catWeeklySpent txs now c > L)))) ∧
    (0 < b.allocations.monthlyLimit →
      ((hasAlert (generateAlerts b txs now) .critical "Monthly Expense Limit Exceeded" = true
          ↔ monthlyBucketTotal txs now > b.allocations.monthlyLimit) ∧
       (hasAlert (generateAlerts b txs now) .warning "Approaching Monthly Expense Limit" = true
          ↔ (monthlyBucketTotal txs now ≥ b.allocations.monthlyLimit * 0.8 ∧
             ¬ monthlyBucketTotal txs now > b.allocations.monthlyLimit)))) := by
  refine ⟨fun hL => ⟨?_, ?_⟩, fun c L hl hL => ?_, fun hL => ⟨?_, ?_⟩⟩
  · rw [hasAlert_generate_to_weekly b txs now .critical "Weekly Limit Exceeded"
      (catAlerts_hasAlert_false b txs now _ _
        (fun c => by cases c <;> exact ⟨by decide, by decide⟩))
      (monthlyAlerts_hasAlert_false b txs now _ _ (by decide) (by decide))
      (savingsAlerts_hasAlert_false b txs now _ _ (by decide) (by decide))]
    exact hasAlert_weeklyAlerts_crit b txs now hL
  · rw [hasAlert_generate_to_weekly b txs now .warning "Approaching Weekly Limit"
      (catAlerts_hasAlert_false b txs now _ _
        (fun c => by cases c <;> exact ⟨by decide, by decide⟩))
      (monthlyAlerts_hasAlert_false b txs now _ _ (by decide) (by decide))
      (savingsAlerts_hasAlert_false b txs now _ _ (by decide) (by decide))]
    exact hasAlert_weeklyAlerts_warn b txs now hL
  · obtain ⟨f1, f2, f3, f4, f5, f6, f7, f8, f9, f10, f11, f12⟩ := catTitle_ne_fixed c
    constructor
    · rw [hasAlert_generate_to_cat b txs now .critical (catName c ++ " Limit Exceeded")
        (weeklyAlerts_hasAlert_false b txs now _ _ f1 f2)
        (monthlyAlerts_hasAlert_false b txs now _ _ f3 f4)
        (savingsAlerts_hasAlert_false b txs now _ _ f5 f6)]
      exact hasAlert_categoryAlerts_crit b txs now c L hl hL
    · rw [hasAlert_generate_to_cat b txs now .warning (catName c ++ " Budget Low")
        (weeklyAlerts_hasAlert_false b txs now _ _ f7 f8)
        (monthlyAlerts_hasAlert_false b txs now _ _ f9 f10)
        (savingsAlerts_hasAlert_false b txs now _ _ f11 f12)]
      exact hasAlert_categoryAlerts_warn b txs now c L hl hL
  · rw [hasAlert_generate_to_monthly b txs now .critical "Monthly Expense Limit Exceeded"
      (weeklyAlerts_hasAlert_false b txs now _ _ (by decide) (by decide))
      (catAlerts_hasAlert_false b txs now _ _
        (fun c => by cases c <;> exact ⟨by decide, by decide⟩))
      (savingsAlerts_hasAlert_false b txs now _ _ (by decide) (by decide))]
    exact hasAlert_monthlyAlerts_crit b txs now hL
  · rw [hasAlert_generate_to_monthly b txs now .warning "Approaching Monthly Expense Limit"
      (weeklyAlerts_hasAlert_false b txs now _ _ (by decide) (by decide))
      (catAlerts_hasAlert_false b txs now _ _
        (fun c => by cases c <;> exact ⟨by decide, by decide⟩))
      (savingsAlerts_hasAlert_false b txs now _ _ (by decide) (by decide))]
    exact hasAlert_monthlyAlerts_warn b txs now hL

theorem C1_spend_limit_alert_thresholds_witness :
    (0 : ℚ) < 1000 ∧
    hasAlert (generateAlerts ⟨50000, ⟨1000, 0, 0, []⟩, true⟩
        [⟨"t1", 800, Groceries, "d", ⟨2025, 6, 15⟩, 0⟩] ⟨2025, 6, 15⟩)
      .warning "Approaching Weekly Limit" = true ∧
    hasAlert (generateAlerts ⟨50000, ⟨1000, 0, 0, []⟩, true⟩
        [⟨"t1", 800, Groceries, "d", ⟨2025, 6, 15⟩, 0⟩] ⟨2025, 6, 15⟩)
      .critical "Weekly Limit Exceeded" = false ∧
    hasAlert (generateAlerts ⟨50000, ⟨1000, 0, 0, []⟩, true⟩
        [⟨"t1", 1001, Groceries, "d", ⟨2025, 6, 15⟩, 0⟩] ⟨2025, 6, 15⟩)
      .critical "Weekly Limit Exceeded" = true ∧
    hasAlert (generateAlerts ⟨50000, ⟨1000, 0, 0, []⟩, true⟩
        [⟨"t1", 1001, Groceries, "d", ⟨2025, 6, 15⟩, 0⟩] ⟨2025, 6, 15⟩)
      .warning "Approaching Weekly Limit" = false := by
  have h1 := (C1_spend_limit_alert_thresholds ⟨50000, ⟨1000, 0, 0, []⟩, true⟩
    [⟨"t1", 800, Groceries, "d", ⟨2025, 6, 15⟩, 0⟩] ⟨2025, 6, 15⟩).1 (by norm_num)
  have h2 := (C1_spend_limit_alert_thresholds ⟨50000, ⟨1000, 0, 0, []⟩, true⟩
    [⟨"t1", 1001, Groceries, "d", ⟨2025, 6, 15⟩, 0⟩] ⟨2025, 6, 15⟩).1 (by norm_num)
  have hsw : isSameWeek ⟨2025, 6, 15⟩ ⟨2025, 6, 15⟩ = true := by decide
  have hv1 : weeklyBucketTotal [⟨"t1", 800, Groceries, "d", ⟨2025, 6, 15⟩, 0⟩]
      ⟨2025, 6, 15⟩ = 800 := by
    simp [weeklyBucketTotal, hsw, CATEGORY_BUCKET_MAP]
  have hv2 : weeklyBucketTotal [⟨"t1", 1001, Groceries, "d", ⟨2025, 6, 15⟩, 0⟩]
      ⟨2025, 6, 15⟩ = 1001 := by
    simp [weeklyBucketTotal, hsw, CATEGORY_BUCKET_MAP]
  refine ⟨by norm_num,
    h1.2.mpr ⟨by rw [hv1]; norm_num, by rw [hv1]; norm_num⟩, ?_,
    h2.1.mpr (by rw [hv2]; norm_num), ?_⟩
  · rw [Bool.eq_false_iff]
    intro hx
    have := h1.1.mp hx
    rw [hv1] at this
    norm_num at this
  · rw [Bool.eq_false_iff]
    intro hx
    have := (h2.2.mp hx).2
    rw [hv2] at this
    norm_num at this

/-! ## C2 — savings alert -/

/-- C2: with `savingsTarget > 0`, `generateAlerts` emits exactly one
savings alert, computed from `currentSavings = monthlyIncome - sum of ALL
transaction amounts` (all time, not month-scoped): a `success` alert iff
`currentSavings ≥ savingsTarget`, a `warning` ("Savings Below Goal")
otherwise, and never a critical savings alert. -/
theorem C2_savings_alert (b : BudgetState) (txs : List Transaction) (now : DateD)
    (ht : 0 < b.allocations.savingsTarget) :
    countTitled (generateAlerts b txs now)
        ["Savings Goal Reached! 🎉", "Savings Below Goal"] = 1 ∧
    (hasAlert (generateAlerts b txs now) .success "Savings Goal Reached! 🎉" = true
       ↔ b.monthlyIncome - totalSpentAll txs ≥ b.allocations.savingsTarget) ∧
    (hasAlert (generateAlerts b txs now) .warning "Savings Below Goal" = true
       ↔ ¬ b.monthlyIncome - totalSpentAll txs ≥ b.allocations.savingsTarget) ∧
    (∀ a ∈ generateAlerts b txs now,
      (a.title = "Savings Goal Reached! 🎉" ∨ a.title = "Savings Below Goal") →
        a.type ≠ .critical) := by
  refine ⟨?_, ?_, ?_, ?_⟩
  · unfold countTitled generateAlerts
    rw [List.filter_append, List.filter_append, List.filter_append]
    have hA : (weeklyAlerts b txs now).filter
        (fun a => (["Savings Goal Reached! 🎉", "Savings Below Goal"] : List String).any
          (fun ti => decide (a.title = ti))) = [] := by
      rw [List.filter_eq_nil_iff]
      intro a ha
      rcases mem_weeklyAlerts_title ha with ⟨_, hti⟩ | ⟨_, hti⟩ <;> simp [hti]
    have hB : (categoryAlerts b txs now).filter
        (fun a => (["Savings Goal Reached! 🎉", "Savings Below Goal"] : List String).any
          (fun ti => decide (a.title = ti))) = [] := by
      rw [List.filter_eq_nil_iff]
      intro a ha
      obtain ⟨c, _, hc⟩ := List.mem_flatMap.mp ha
      obtain ⟨f1, f2, f3, f4, f5, f6, f7, f8, f9, f10, f11, f12⟩ := catTitle_ne_fixed c
      rcases mem_catAlertFor_title hc with ⟨_, hti⟩ | ⟨_, hti⟩ <;> simp [hti, f5, f6, f11, f12]
    have hC : (monthlyAlerts b txs now).filter
        (fun a => (["Savings Goal Reached! 🎉", "Savings Below Goal"] : List String).any
          (fun ti => decide (a.title = ti))) = [] := by
      rw [List.filter_eq_nil_iff]
      intro a ha
      rcases mem_monthlyAlerts_title ha with ⟨_, hti⟩ | ⟨_, hti⟩ <;> simp [hti]
    rw [hA, hB, hC]
    simp only [List.nil_append, List.length_append, List.length_nil]
    unfold savingsAlerts
    rw [if_pos ht]
    split_ifs with h1 <;> simp
  · rw [hasAlert_generate_to_savings b txs now .success "Savings Goal Reached! 🎉"
      (weeklyAlerts_hasAlert_false b txs now _ _ (by decide) (by decide))
      (catAlerts_hasAlert_false b txs now _ _
        (fun c => by cases c <;> exact ⟨by decide, by decide⟩))
      (monthlyAlerts_hasAlert_false b txs now _ _ (by decide) (by decide))]
    exact hasAlert_savingsAlerts_success b txs now ht
  · rw [hasAlert_generate_to_savings b txs now .warning "Savings Below Goal"
      (weeklyAlerts_hasAlert_false b txs now _ _ (by decide) (by decide))
      (catAlerts_hasAlert_false b txs now _ _
        (fun c => by cases c <;> exact ⟨by decide, by decide⟩))
      (monthlyAlerts_hasAlert_false b txs now _ _ (by decide) (by decide))]
    exact hasAlert_savingsAlerts_warn b txs now ht
  · intro a ha hti
    unfold generateAlerts at ha
    rcases List.mem_append.mp ha with ha' | hD
    · rcases List.mem_append.mp ha' with ha'' | hC
      · rcases List.mem_append.mp ha'' with hA | hB
        · rcases mem_weeklyAlerts_title hA with ⟨_, ht'⟩ | ⟨_, ht'⟩ <;>
            rw [ht'] at hti <;> simp at hti
        · obtain ⟨c, _, hc⟩ := List.mem_flatMap.mp hB
          obtain ⟨f1, f2, f3, f4, f5, f6, f7, f8, f9, f10, f11, f12⟩ := catTitle_ne_fixed c
          rcases mem_catAlertFor_title hc with ⟨_, ht'⟩ | ⟨_, ht'⟩ <;> rw [ht'] at hti
          · rcases hti with h | h
            exacts [(f5 h).elim, (f6 h).elim]
          · rcases hti with h | h
            exacts [(f11 h).elim, (f12 h).elim]
      · rcases mem_monthlyAlerts_title hC with ⟨_, ht'⟩ | ⟨_, ht'⟩ <;>
          rw [ht'] at hti <;> simp at hti
    · rcases mem_savingsAlerts_title hD with ⟨hty, _⟩ | ⟨hty, _⟩ <;> simp [hty]

theorem C2_savings_alert_witness :
    (0 : ℚ) < 300 ∧
    countTitled (generateAlerts ⟨1000, ⟨0, 0, 300, []⟩, true⟩
        [⟨"t1", 800, Groceries, "d", ⟨2025, 6, 15⟩, 0⟩] ⟨2025, 6, 15⟩)
      ["Savings Goal Reached! 🎉", "Savings Below Goal"] = 1 ∧
    hasAlert (generateAlerts ⟨1000, ⟨0, 0, 300, []⟩, true⟩
        [⟨"t1", 800, Groceries, "d", ⟨2025, 6, 15⟩, 0⟩] ⟨2025, 6, 15⟩)
      .warning "Savings Below Goal" = true ∧
    hasAlert (generateAlerts ⟨1000, ⟨0, 0, 300, []⟩, true⟩
        [⟨"t1", 500, Groceries, "d", ⟨2025, 6, 15⟩, 0⟩] ⟨2025, 6, 15⟩)
      .success "Savings Goal Reached! 🎉" = true := by
  have h1 := C2_savings_alert ⟨1000, ⟨0, 0, 300, []⟩, true⟩
    [⟨"t1", 800, Groceries, "d", ⟨2025, 6, 15⟩, 0⟩] ⟨2025, 6, 15⟩ (by norm_num)
  have h2 := C2_savings_alert ⟨1000, ⟨0, 0, 300, []⟩, true⟩
    [⟨"t1", 500, Groceries, "d", ⟨2025, 6, 15⟩, 0⟩] ⟨2025, 6, 15⟩ (by norm_num)
  have hs1 : totalSpentAll [(⟨"t1", 800, Groceries, "d", ⟨2025, 6, 15⟩, 0⟩ : Transaction)]
      = 800 := by simp [totalSpentAll]
  have hs2 : totalSpentAll [(⟨"t1", 500, Groceries, "d", ⟨2025, 6, 15⟩, 0⟩ : Transaction)]
      = 500 := by simp [totalSpentAll]
  exact ⟨by norm_num, h1.1,
    h1.2.2.1.mpr (by rw [hs1]; norm_num),
    h2.2.1.mpr (by rw [hs2]; norm_num)⟩

/-! ## Character-class facts -/

theorem lowerChar_isSpace (c : Char) : isSpaceC (lowerChar c) = isSpaceC c := by
  unfold lowerChar
  split <;> rfl

theorem lowerChar_isDigit (c : Char) : isDigitC (lowerChar c) = isDigitC c := by
  unfold lowerChar
  split <;> rfl

theorem lowerChar_isWord (c : Char) : isWordC (lowerChar c) = isWordC c := by
  unfold lowerChar
  split <;> rfl

theorem lowerChar_fix_of_space (c : Char) (h : isSpaceC c = true) : lowerChar c = c := by
  unfold lowerChar
  split <;> first | rfl | (exact absurd h (by decide))

theorem digit_isWord {c : Char} (h : isDigitC c = true) : isWordC c = true := by
  unfold isDigitC at h
  simp [isWordC, Char.isAlphanum, h]

theorem space_not_digit {c : Char} (h : isSpaceC c = true) : isDigitC c = false := by
  simp only [isSpaceC, Bool.or_eq_true, decide_eq_true_eq] at h
  rcases h with (((((h | h) | h) | h) | h) | h) <;> subst h <;> decide

theorem digit_not_space {c : Char} (h : isDigitC c = true) : isSpaceC c = false := by
  by_cases hs : isSpaceC c = true
  · rw [space_not_digit hs] at h
    cases h
  · simpa using hs

/-! ## `hasDB` combinatorics -/

theorem hasDB_cons_right {c : Char} {l : List Char} (h : hasDB l = true) :
    hasDB (c :: l) = true := by
  unfold hasDB
  rw [h]
  simp

theorem hasDB_append_right {s l : List Char} (h : hasDB l = true) :
    hasDB (s ++ l) = true := by
  induction s with
  | nil => simpa using h
  | cons c s ih => exact hasDB_cons_right ih

theorem hasDB_digit_boundary {d : Char} (xs rest : List Char)
    (hd : isDigitC d = true) (hb : nextBoundary rest = true) :
    hasDB (xs ++ d :: rest) = true := by
  induction xs with
  | nil =>
    rw [List.nil_append]
    unfold hasDB
    rw [hd, hb]
    simp
  | cons c xs ih => exact hasDB_cons_right ih

theorem hasDB_of_cons {c : Char} {l : List Char} (h : hasDB (c :: l) = true) :
    (isDigitC c = true ∧ nextBoundary l = true) ∨ hasDB l = true := by
  unfold hasDB at h
  simp only [Bool.or_eq_true, Bool.and_eq_true] at h
  exact h

theorem hasDB_ne_nil {l : List Char} (h : hasDB l = true) : l ≠ [] := by
  intro he
  subst he
  simp [hasDB] at h

theorem hasDB_all_space {s : List Char} (hs : ∀ x ∈ s, isSpaceC x = true) :
    hasDB s = false := by
  induction s with
  | nil => rfl
  | cons c r ih =>
    unfold hasDB
    rw [space_not_digit (hs c (by simp)), ih (fun x hx => hs x (by simp [hx]))]
    rfl

theorem hasDB_dropWhile_space {l : List Char} (h : hasDB l = true) :
    hasDB (l.dropWhile isSpaceC) = true := by
  induction l with
  | nil => simpa using h
  | cons c r ih =>
    by_cases hs : isSpaceC c = true
    · rw [List.dropWhile_cons, if_pos hs]
      rcases hasDB_of_cons h with ⟨hd, _⟩ | hr
      · rw [space_not_digit hs] at hd
        cases hd
      · exact ih hr
    · rw [List.dropWhile_cons, if_neg hs]
      exact h

theorem hasDB_append_space {l s : List Char} (hs : ∀ x ∈ s, isSpaceC x = true)
    (h : hasDB (l ++ s) = true) : hasDB l = true := by
  induction l with
  | nil => rw [List.nil_append] at h; rw [hasDB_all_space hs] at h; cases h
  | cons c l' ih =>
    rcases hasDB_of_cons h with ⟨hd, hb⟩ | hr
    · unfold hasDB
      rw [hd]
      cases l' with
      | nil => simp [nextBoundary]
      | cons y r =>
        have hb2 : nextBoundary (y :: r) = true := hb
        rw [hb2]
        simp
    · exact hasDB_cons_right (ih hr)

theorem hasDB_trimL {l : List Char} (h : hasDB l = true) : hasDB (trimL l) = true := by
  have h1 : hasDB (l.dropWhile isSpaceC) = true := hasDB_dropWhile_space h
  have hdecomp : l.dropWhile isSpaceC
      = trimL l ++ ((l.dropWhile isSpaceC).reverse.takeWhile isSpaceC).reverse := by
    conv_lhs => rw [← List.reverse_reverse (l.dropWhile isSpaceC),
      ← List.takeWhile_append_dropWhile isSpaceC (l.dropWhile isSpaceC).reverse]
    rw [List.reverse_append]
    rfl
  apply hasDB_append_space (s := ((l.dropWhile isSpaceC).reverse.takeWhile isSpaceC).reverse)
  · intro x hx
    exact List.mem_takeWhile_imp (List.mem_reverse.mp hx)
  · rw [← hdecomp]
    exact h1

theorem nextBoundary_map_lower (l : List Char) :
    nextBoundary (l.map lowerChar) = nextBoundary l := by
  cases l with
  | nil => rfl
  | cons c r => simp [nextBoundary, lowerChar_isWord]

theorem hasDB_lowAll (l : List Char) : hasDB (lowAll l) = hasDB l := by
  induction l with
  | nil => rfl
  | cons c r ih =>
    unfold lowAll at ih ⊢
    simp only [List.map_cons]
    unfold hasDB
    rw [ih, lowerChar_isDigit, nextBoundary_map_lower]

/-! ## Chunk-splitting preserves the digit-boundary witness -/

theorem splitChunks_ne_nil (l : List Char) : splitChunks l ≠ [] := by
  cases l with
  | nil => simp [splitChunks]
  | cons c rest =>
    unfold splitChunks
    split_ifs
    · simp
    · cases h : splitChunks rest <;> simp

theorem splitChunks_head_boundary {rest ch0 : List Char} {chs : List (List Char)}
    (hsc : splitChunks rest = ch0 :: chs) (hb : nextBoundary rest = true) :
    nextBoundary ch0 = true := by
  cases rest with
  | nil =>
    simp [splitChunks] at hsc
    rw [hsc.1]
    rfl
  | cons y r2 =>
    unfold splitChunks at hsc
    split_ifs at hsc with hy
    · obtain rfl : ([] : List Char) = ch0 := by injection hsc
      rfl
    · cases h2 : splitChunks r2 with
      | nil => exact absurd h2 (splitChunks_ne_nil r2)
      | cons c0 cs =>
        rw [h2] at hsc
        have : y :: c0 = ch0 := by injection hsc
        rw [← this]
        exact hb

theorem hasDB_splitChunks {l : List Char} (h : hasDB l = true) :
    ∃ ch ∈ splitChunks l, hasDB ch = true := by
  induction l with
  | nil => simp [hasDB] at h
  | cons c rest ih =>
    by_cases hc : c = ',' ∨ c = '\n'
    · have hnd : isDigitC c = false := by
        rcases hc with rfl | rfl <;> decide
      have hr : hasDB rest = true := by
        rcases hasDB_of_cons h with ⟨hd, _⟩ | hr
        · rw [hnd] at hd; cases hd
        · exact hr
      obtain ⟨ch, hch, hdb⟩ := ih hr
      refine ⟨ch, ?_, hdb⟩
      unfold splitChunks
      rw [if_pos (by simpa using hc)]
      exact List.mem_cons_of_mem _ hch
    · cases hsc : splitChunks rest with
      | nil => exact absurd hsc (splitChunks_ne_nil rest)
      | cons ch0 chs =>
        have hsplit : splitChunks (c :: rest) = (c :: ch0) :: chs := by
          unfold splitChunks
          rw [if_neg (by simpa using hc), hsc]
        rcases hasDB_of_cons h with ⟨hd, hb⟩ | hr
        · refine ⟨c :: ch0, ?_, ?_⟩
          · rw [hsplit]; simp
          · unfold hasDB
            rw [hd, splitChunks_head_boundary hsc hb]
            simp
        · obtain ⟨ch, hch, hdb⟩ := ih hr
          rw [hsc] at hch
          rcases List.mem_cons.mp hch with rfl | hch'
          · refine ⟨c :: ch, ?_, hasDB_cons_right hdb⟩
            rw [hsplit]
            simp
          · refine ⟨ch, ?_, hdb⟩
            rw [hsplit]
            exact List.mem_cons_of_mem _ hch'

/-! ## Matcher evaluation lemmas -/

theorem commaGroups_not_comma {x : Char} {r : List Char} (hx : ¬ x = ',') :
    commaGroups (x :: r) = ([], x :: r) := by
  unfold commaGroups
  split
  · rename_i c2 rest2 heq
    injection heq with h1 h2
    exact absurd h1 hx
  · rfl

theorem tryDecimals_not_dot {x : Char} {r : List Char} (hx : ¬ x = '.') :
    tryDecimals (x :: r) = none := by
  unfold tryDecimals
  split
  · rename_i d1 rest heq
    injection heq with h1 h2
    exact absurd h1 hx
  · rfl

theorem cgInside_fst_ne_nil : ∀ (l : List Char) (acc : List Char),
    (cgInside acc l).1 ≠ [] := by
  intro l
  induction l with
  | nil => intro acc; simp [cgInside]
  | cons c rest ih =>
    intro acc
    unfold cgInside
    split_ifs with h1 h2
    · exact ih _
    · cases rest with
      | nil => simp
      | cons d rest2 =>
        dsimp only
        split_ifs with h3
        · simp
        · simp
    · simp

theorem matchBodyAt_none {l : List Char} (h : hasDB l = false) : matchBodyAt l = none := by
  cases l with
  | nil => rfl
  | cons c rest =>
    by_cases hd : isDigitC c = true
    · have hsplit : nextBoundary rest = false ∧ hasDB rest = false := by
        unfold hasDB at h
        rcases Bool.or_eq_false_iff.mp h with ⟨h1, h2⟩
        rw [hd] at h1
        exact ⟨by simpa using h1, h2⟩
      obtain ⟨hnb, hrest⟩ := hsplit
      cases hr1 : (c :: rest).dropWhile isDigitC with
      | nil =>
        exfalso
        have hrun : (c :: rest).takeWhile isDigitC = c :: rest := by
          have htd := List.takeWhile_append_dropWhile isDigitC (c :: rest)
          rw [hr1, List.append_nil] at htd
          exact htd
        have hne : (c :: rest) ≠ [] := by simp
        have hlast : isDigitC ((c :: rest).getLast hne) = true := by
          apply List.mem_takeWhile_imp (p := isDigitC)
          rw [hrun]
          exact List.getLast_mem hne
        have hdb : hasDB (c :: rest) = true := by
          conv_lhs => rw [← List.dropLast_append_getLast hne]
          exact hasDB_digit_boundary _ _ hlast rfl
        rw [hdb] at h
        cases h
      | cons x r1' =>
        have hxnd : isDigitC x = false := by
          have hh := List.head_dropWhile_not isDigitC (l := c :: rest)
          rw [hr1] at hh
          simpa using hh
        have hxw : isWordC x = true := by
          by_contra hxw
          have hrun_ne : (c :: rest).takeWhile isDigitC ≠ [] := by
            simp [List.takeWhile_cons, hd]
          have hlast : isDigitC (((c :: rest).takeWhile isDigitC).getLast hrun_ne) = true :=
            List.mem_takeWhile_imp (List.getLast_mem hrun_ne)
          have hdecomp : (c :: rest)
              = ((c :: rest).takeWhile isDigitC).dropLast
                ++ ((c :: rest).takeWhile isDigitC).getLast hrun_ne :: (x :: r1') := by
            conv_lhs => rw [← List.takeWhile_append_dropWhile isDigitC (c :: rest)]
            rw [hr1]
            conv_lhs => rw [← List.dropLast_append_getLast hrun_ne]
            rw [List.append_assoc]
            rfl
          have hdb : hasDB (c :: rest) = true := by
            rw [hdecomp]
            refine hasDB_digit_boundary _ _ hlast ?_
            show (!isWordC x) = true
            simpa using hxw
          rw [hdb] at h
          cases h
        have hxc : ¬ x = ',' := by
          intro he
          rw [he] at hxw
          exact absurd hxw (by decide)
        have hxd : ¬ x = '.' := by
          intro he
          rw [he] at hxw
          exact absurd hxw (by decide)
        unfold matchBodyAt
        dsimp only
        rw [if_pos hd]
        rw [hr1, commaGroups_not_comma hxc]
        dsimp only
        rw [tryDecimals_not_dot hxd]
        have hnb2 : nextBoundary (x :: r1') = false := by
          show (!isWordC x) = false
          simp [hxw]
        rw [hnb2]
        rfl
    · unfold matchBodyAt
      dsimp only
      rw [if_neg hd]

theorem tryWithPrefix_none {l : List Char} (pre : List Char) (h : hasDB l = false) :
    tryWithPrefix pre l = none := by
  unfold tryWithPrefix
  split_ifs with hp
  · have hsuffix : (l.drop pre.length).dropWhile isSpaceC <:+ l :=
      (List.dropWhile_suffix isSpaceC).trans (List.drop_suffix _ l)
    obtain ⟨s, hs⟩ := hsuffix
    have hbody : hasDB ((l.drop pre.length).dropWhile isSpaceC) = false := by
      by_contra hbz
      have hdbl : hasDB l = true := by
        rw [← hs]
        exact hasDB_append_right (by simpa using hbz)
      rw [hdbl] at h
      cases h
    dsimp only
    rw [matchBodyAt_none hbody]
  · rfl

theorem matchAt_none {l : List Char} (h : hasDB l = false) : matchAt l = none := by
  unfold matchAt
  rw [tryWithPrefix_none _ h, tryWithPrefix_none _ h, tryWithPrefix_none _ h,
    tryWithPrefix_none _ h]

theorem scanMatch_none {l : List Char} (h : hasDB l = false) : scanMatch l = none := by
  induction l with
  | nil => rfl
  | cons c rest ih =>
    have hrest : hasDB rest = false := by
      unfold hasDB at h
      exact (Bool.or_eq_false_iff.mp h).2
    unfold scanMatch
    rw [matchAt_none h, ih hrest]

theorem matchBodyAt_some {c : Char} {rest : List Char} (hd : isDigitC c = true)
    (hb : nextBoundary rest = true) : matchBodyAt (c :: rest) ≠ none := by
  cases rest with
  | nil =>
    simp [matchBodyAt, hd, List.takeWhile_cons, List.dropWhile_cons, commaGroups,
      tryDecimals, nextBoundary]
  | cons x r' =>
    have hxw : isWordC x = false := by
      have hbb : (!isWordC x) = true := hb
      simpa using hbb
    have hxnd : isDigitC x = false := by
      by_cases hq : isDigitC x = true
      · rw [digit_isWord hq] at hxw
        cases hxw
      · simpa using hq
    have hrun2 : (x :: r').takeWhile isDigitC = [] := by
      simp [List.takeWhile_cons, hxnd]
    have hdrop2 : (x :: r').dropWhile isDigitC = x :: r' := by
      simp [List.dropWhile_cons, hxnd]
    unfold matchBodyAt
    dsimp only
    rw [if_pos hd]
    rw [List.takeWhile_cons, if_pos hd, hrun2, List.dropWhile_cons, if_pos hd, hdrop2]
    by_cases hxc : x = ','
    · subst hxc
      cases r' with
      | nil =>
        simp only [commaGroups, tryDecimals]
        simp [nextBoundary, show isWordC ',' = false from by decide]
      | cons d r'' =>
        by_cases hdd : isDigitC d = true
        · have hcg : commaGroups (',' :: d :: r'') = cgInside [d, ','] r'' := by
            have hstep : commaGroups (',' :: d :: r'')
                = if isDigitC d = true then cgInside [d, ','] r''
                  else ([], ',' :: d :: r'') := rfl
            rw [hstep, if_pos hdd]
          rw [hcg]
          have hgs := cgInside_fst_ne_nil r'' [d, ',']
          cases htd : tryDecimals (cgInside [d, ','] r'').2 with
          | some q => simp [htd]
          | none =>
            by_cases hnb : nextBoundary (cgInside [d, ','] r'').2 = true
            · simp [htd, hnb]
            · cases hgsc : (cgInside [d, ','] r'').1 with
              | nil => exact absurd hgsc hgs
              | cons g gs =>
                simp [htd, hgsc, Bool.of_not_eq_true hnb]
        · have hcg : commaGroups (',' :: d :: r'') = ([], ',' :: d :: r'') := by
            have hstep : commaGroups (',' :: d :: r'')
                = if isDigitC d = true then cgInside [d, ','] r''
                  else ([], ',' :: d :: r'') := rfl
            rw [hstep, if_neg hdd]
          rw [hcg]
          dsimp only
          rw [tryDecimals_not_dot (by decide)]
          simp [nextBoundary, show isWordC ',' = false from by decide]
    · rw [commaGroups_not_comma hxc]
      dsimp only
      by_cases hxd : x = '.'
      · subst hxd
        cases htd : tryDecimals ('.' :: r') with
        | some q => simp [htd]
        | none => simp [htd, nextBoundary, hxw]
      · rw [tryDecimals_not_dot hxd]
        simp [nextBoundary, hxw]

theorem tryWithPrefix_nil_some {c : Char} {rest : List Char} (hd : isDigitC c = true)
    (hb : nextBoundary rest = true) : tryWithPrefix [] (c :: rest) ≠ none := by
  unfold tryWithPrefix
  rw [if_pos (show (List.isPrefixOf ([] : List Char) (c :: rest)) = true from rfl)]
  dsimp only
  have hns : isSpaceC c = false := digit_not_space hd
  rw [show ((c :: rest).drop (List.length ([] : List Char))) = c :: rest from rfl]
  rw [List.dropWhile_cons, if_neg (by simp [hns])]
  cases hmb : matchBodyAt (c :: rest) with
  | none => exact absurd hmb (matchBodyAt_some hd hb)
  | some q => simp

theorem matchAt_ne_none {l : List Char} (h : tryWithPrefix [] l ≠ none) :
    matchAt l ≠ none := by
  unfold matchAt
  intro hc
  cases h1 : tryWithPrefix ['r', 's', '.'] l with
  | some r => rw [h1] at hc; cases hc
  | none =>
    rw [h1] at hc
    cases h2 : tryWithPrefix ['r', 's'] l with
    | some r => rw [h2] at hc; cases hc
    | none =>
      rw [h2] at hc
      cases h3 : tryWithPrefix ['₹'] l with
      | some r => rw [h3] at hc; cases hc
      | none =>
        rw [h3] at hc
        exact h hc

theorem scanMatch_ne_none {l : List Char} (h : hasDB l = true) : scanMatch l ≠ none := by
  induction l with
  | nil => simp [hasDB] at h
  | cons c rest ih =>
    rcases hasDB_of_cons h with ⟨hd, hb⟩ | hr
    · have hma := matchAt_ne_none (tryWithPrefix_nil_some hd hb)
      unfold scanMatch
      cases hmac : matchAt (c :: rest) with
      | some r => simp
      | none => exact absurd hmac hma
    · unfold scanMatch
      cases hmac : matchAt (c :: rest) with
      | some r => simp
      | none => exact ih hr

/-! ## C4 — multi-expense splitter -/

theorem parse_amount_eq (text : String) (now : DateD) :
    (parseExpenseInput text now).amount
      = (scanMatch (lowAll text.data)).map (fun m => ratOfNumeral m.2) := rfl

/-- If every surviving chunk parses with a null amount, so does the whole
text: an amount-regex match in the whole text forces a digit followed by a
word boundary, which survives into some trimmed chunk, where the regex
then matches as well. -/
theorem chunks_amount_none (text : String) (now : DateD)
    (h : ∀ ch ∈ ((splitChunks text.data).map trimL).filter (fun c => decide (0 < c.length)),
        (parseExpenseInput (String.mk ch) now).amount = none) :
    (parseExpenseInput text now).amount = none := by
  rw [parse_amount_eq, Option.map_eq_none']
  by_cases hdb : hasDB (lowAll text.data) = true
  · exfalso
    rw [hasDB_lowAll] at hdb
    obtain ⟨ch, hch, hchdb⟩ := hasDB_splitChunks hdb
    have htr : hasDB (trimL ch) = true := hasDB_trimL hchdb
    have hmem : trimL ch ∈ ((splitChunks text.data).map trimL).filter
        (fun c => decide (0 < c.length)) := by
      rw [List.mem_filter]
      refine ⟨List.mem_map_of_mem _ hch, ?_⟩
      have hne := hasDB_ne_nil htr
      simp [List.length_pos, hne]
    have hnone := h (trimL ch) hmem
    rw [parse_amount_eq, Option.map_eq_none'] at hnone
    have hlow : hasDB (lowAll (String.mk (trimL ch)).data) = true := by
      rw [show (String.mk (trimL ch)).data = trimL ch from rfl, hasDB_lowAll]
      exact htr
    exact scanMatch_ne_none hlow hnone
  · exact scanMatch_none (by simpa using hdb)

/-- C4: the multi-expense splitter behaves as the claim describes — split
on `,`/newline, trim, drop empties, parse the chunks, discard null-amount
parses; when nothing survives, re-parse the whole original text and return
it as a singleton iff its amount is non-null.  The source keys the final
fallback on JS truthiness (`single.amount ?`), but when the fallback runs
no chunk contained an amount match, hence neither does the whole text, so
the two conditions coincide. -/
theorem C4_multi_split (text : String) (now : DateD) :
    parseMultipleExpenses text now = parseMultipleExpensesSpec text now := by
  unfold parseMultipleExpenses parseMultipleExpensesSpec
  dsimp only
  by_cases hE : ((((splitChunks text.data).map trimL).filter
        (fun c => decide (0 < c.length))).map
        (fun c => parseExpenseInput (String.mk c) now)).filter
      (fun item => item.amount.isSome) = []
  · rw [hE]
    simp only [List.isEmpty_nil, if_true]
    have hnone : (parseExpenseInput text now).amount = none := by
      apply chunks_amount_none text now
      intro ch hch
      have hmem : parseExpenseInput (String.mk ch) now
          ∈ (((splitChunks text.data).map trimL).filter
              (fun c => decide (0 < c.length))).map
            (fun c => parseExpenseInput (String.mk c) now) :=
        List.mem_map_of_mem _ hch
      have hns := List.filter_eq_nil_iff.mp hE _ hmem
      simpa [Option.not_isSome_iff_eq_none] using hns
    rw [hnone]
    rfl
  · rw [if_neg (by simpa [List.isEmpty_iff] using hE),
      if_neg (by simpa [List.isEmpty_iff] using hE)]

/-! ## `find?` decomposition (first-match characterization) -/

theorem find?_decomp {α : Type} (p : α → Bool) (l : List α) (a : α)
    (h : l.find? p = some a) :
    ∃ l1 l2, l = l1 ++ a :: l2 ∧ p a = true ∧ ∀ x ∈ l1, p x = false := by
  induction l with
  | nil => simp [List.find?] at h
  | cons x xs ih =>
    by_cases hp : p x
    · rw [List.find?_cons_of_pos _ hp] at h
      obtain rfl : x = a := by injection h
      exact ⟨[], xs, rfl, hp, by simp⟩
    · rw [List.find?_cons_of_neg _ (by simpa using hp)] at h
      obtain ⟨l1, l2, heq, hpa, hall⟩ := ih h
      refine ⟨x :: l1, l2, by rw [heq]; rfl, hpa, ?_⟩
      intro y hy
      rcases List.mem_cons.mp hy with rfl | hy'
      · simpa using hp
      · exact hall y hy'

/-! ## C3 — keyword category extraction -/

/-- C3 (counterexample): the claim says `"zomato order for dinner, 300"`
parses to category `Orders`; in the source table `Outings` (keyword
"dinner") precedes `Orders`, so the single-item parse yields `Outings`,
and the multi-item splitter (splitting at the comma) yields
`Miscellaneous` for the surviving chunk `"300"` — never `Orders`. -/
theorem C3_counterexample_orders_example :
    (parseExpenseInput "zomato order for dinner, 300" ⟨2025, 6, 15⟩).category
        = some Outings ∧
    ¬ (parseExpenseInput "zomato order for dinner, 300" ⟨2025, 6, 15⟩).category
        = some Orders ∧
    ((parseMultipleExpenses "zomato order for dinner, 300" ⟨2025, 6, 15⟩).map
        (fun p => p.category)) = [some Miscellaneous] := by
  refine ⟨by decide, by decide, ?_⟩
  have h1 : firstKeywordCat (lowAll "300".data) = none := by decide
  have h2 : scanMatch (lowAll "300".data) = some (['3', '0', '0'], ['3', '0', '0']) := by
    decide
  have h3 : ¬ ratOfNumeral ['3', '0', '0'] = 0 := by
    rw [show ratOfNumeral ['3', '0', '0']
        = ((300 : ℕ) : ℚ) + ((0 : ℕ) : ℚ) / (10 : ℚ) ^ (0 : ℕ) from rfl]
    norm_num
  have hcat : (parseExpenseInput "300" ⟨2025, 6, 15⟩).category = some Miscellaneous := by
    unfold parseExpenseInput
    dsimp only
    rw [h1, h2]
    simp only [Option.map]
    rw [if_neg h3]
  have hmulti : parseMultipleExpenses "zomato order for dinner, 300" ⟨2025, 6, 15⟩
      = [parseExpenseInput "300" ⟨2025, 6, 15⟩] := rfl
  rw [hmulti, List.map_cons, List.map_nil, hcat]

/-- C3 (amended): category extraction returns the first category, in the
fixed keyword-table order, whose keyword list contains a case-insensitive
substring match (every earlier table entry fails to match), and the parser
adopts that category; for `"zomato order for dinner, 300"` the result is
`Outings`, not `Orders`, because `Outings` precedes `Orders` in the table
and matches via "dinner" — even though an `Orders` keyword also matches. -/
theorem C3_amended_first_match_wins :
    (∀ (text : String) (c : TransactionCategory),
      firstKeywordCat (lowAll text.data) = some c →
        ∃ ws pre post, keywordTable = pre ++ (c, ws) :: post ∧
          ws.any (fun w => containsSub w.data (lowAll text.data)) = true ∧
          ∀ p ∈ pre, p.2.any (fun w => containsSub w.data (lowAll text.data)) = false) ∧
    (∀ (text : String) (now : DateD) (c : TransactionCategory),
      firstKeywordCat (lowAll text.data) = some c →
        (parseExpenseInput text now).category = some c) ∧
    firstKeywordCat (lowAll "zomato order for dinner, 300".data) = some Outings ∧
    catMatches Orders (lowAll "zomato order for dinner, 300".data) = true := by
  refine ⟨?_, ?_, by decide, by decide⟩
  · intro text c h
    unfold firstKeywordCat at h
    cases hf : keywordTable.find?
        (fun p => p.2.any (fun w => containsSub w.data (lowAll text.data))) with
    | none => rw [hf] at h; cases h
    | some entry =>
      rw [hf] at h
      obtain rfl : entry.1 = c := by injection h
      obtain ⟨l1, l2, heq, hpa, hall⟩ := find?_decomp _ _ _ hf
      exact ⟨entry.2, l1, l2, by rw [heq], hpa, hall⟩
  · intro text now c h
    unfold parseExpenseInput
    dsimp only
    rw [h]

theorem C3_amended_first_match_wins_witness :
    (parseExpenseInput "zomato order for dinner, 300" ⟨2025, 6, 15⟩).category
        = some Outings :=
  C3_amended_first_match_wins.2.1 "zomato order for dinner, 300" ⟨2025, 6, 15⟩
    Outings (by decide)

/-! ## C10 — case-sensitive category normalization -/

/-- Two strings that agree after ASCII lowercasing but differ somewhere
still differ after removing all whitespace (the differing position is a
cased letter, which no whitespace removal can erase). -/
theorem filter_ne_of_lower_eq : ∀ l1 l2 : List Char,
    l1.map lowerChar = l2.map lowerChar → l1 ≠ l2 →
    l1.filter (fun c => !isSpaceC c) ≠ l2.filter (fun c => !isSpaceC c) := by
  intro l1
  induction l1 with
  | nil =>
    intro l2 h hne
    cases l2 with
    | nil => exact absurd rfl hne
    | cons c2 r2 => simp at h
  | cons c1 r1 ih =>
    intro l2 h hne
    cases l2 with
    | nil => simp at h
    | cons c2 r2 =>
      simp only [List.map_cons, List.cons.injEq] at h
      obtain ⟨hc, hr⟩ := h
      by_cases hsp : isSpaceC c1 = true
      · have hsp2 : isSpaceC c2 = true := by
          rw [← lowerChar_isSpace c2, ← hc, lowerChar_isSpace]; exact hsp
        have hcc : c1 = c2 := by
          rw [← lowerChar_fix_of_space c1 hsp, hc, lowerChar_fix_of_space c2 hsp2]
        have hrne : r1 ≠ r2 := fun he => hne (by rw [hcc, he])
        simpa [List.filter_cons, hsp, hsp2] using ih r2 hr hrne
      · have hsp2 : ¬ isSpaceC c2 = true := by
          rw [← lowerChar_isSpace c2, ← hc, lowerChar_isSpace]; exact hsp
        simp only [List.filter_cons, Bool.not_eq_true']
        rw [if_pos (by simpa using hsp), if_pos (by simpa using hsp2)]
        by_cases hcc : c1 = c2
        · subst hcc
          have hrne : r1 ≠ r2 := fun he => hne (by rw [he])
          intro he
          exact ih r2 hr hrne (by injection he)
        · intro he
          exact hcc (by injection he)

theorem filter_map_lower_comm (l : List Char) :
    (l.filter (fun c => !isSpaceC c)).map lowerChar
      = (l.map lowerChar).filter (fun c => !isSpaceC c) := by
  induction l with
  | nil => rfl
  | cons c r ih =>
    simp only [List.map_cons, List.filter_cons, lowerChar_isSpace]
    by_cases h : isSpaceC c = true
    · simp [h, ih]
    · simp [h, ih]

/-- The normalization keys are pairwise distinct even after lowercasing. -/
theorem keyLowerDistinct : ∀ s ∈ CATEGORY_MAP.map Prod.fst,
    ∀ t ∈ CATEGORY_MAP.map Prod.fst,
    s.data.map lowerChar = t.data.map lowerChar → s = t := by
  decide

/-- Any key that lower-matches the whitespace-stripped form of a key `K`
is that stripped form itself. -/
theorem keyStripFact : ∀ K ∈ CATEGORY_MAP.map Prod.fst,
    ∀ k2 ∈ CATEGORY_MAP.map Prod.fst,
    k2.data.map lowerChar = (stripSpaces K).data.map lowerChar →
    k2 = stripSpaces K := by
  decide

/-- C10: the adapter's category normalization is case-sensitive, also after
the whitespace-stripped retry: a label that agrees with some lookup-table
key up to ASCII letter case but is not exactly that key (e.g. "food" or
"FOOD" for "Food") normalizes to `Miscellaneous`, not to the synonym's
mapped category. -/
theorem C10_case_sensitive_normalization (label key : String)
    (hk : key ∈ CATEGORY_MAP.map Prod.fst)
    (hlow : label.data.map lowerChar = key.data.map lowerChar)
    (hne : ¬ label = key) :
    normalizeCategory label = Miscellaneous := by
  have hdata_ne : label.data ≠ key.data := by
    intro h
    exact hne (by cases label; cases key; simp_all)
  have h1 : lookupCat label = none := by
    unfold lookupCat
    rw [Option.map_eq_none', List.find?_eq_none]
    intro p hp
    simp only [beq_iff_eq, decide_eq_true_eq]
    intro he
    have hpk : p.1 ∈ CATEGORY_MAP.map Prod.fst := List.mem_map_of_mem _ hp
    have hpkey : p.1 = key := keyLowerDistinct p.1 hpk key hk (by rw [he]; exact hlow)
    exact hne (by rw [← he, hpkey])
  have hstriplow : (stripSpaces label).data.map lowerChar
      = (stripSpaces key).data.map lowerChar := by
    unfold stripSpaces
    rw [show (String.mk (label.data.filter (fun c => !isSpaceC c))).data
        = label.data.filter (fun c => !isSpaceC c) from rfl,
      show (String.mk (key.data.filter (fun c => !isSpaceC c))).data
        = key.data.filter (fun c => !isSpaceC c) from rfl,
      filter_map_lower_comm, filter_map_lower_comm, hlow]
  have hstripne : stripSpaces label ≠ stripSpaces key := by
    intro h
    apply filter_ne_of_lower_eq label.data key.data hlow hdata_ne
    have := congrArg String.data h
    simpa [stripSpaces] using this
  have h2 : lookupCat (stripSpaces label) = none := by
    unfold lookupCat
    rw [Option.map_eq_none', List.find?_eq_none]
    intro p hp
    simp only [beq_iff_eq, decide_eq_true_eq]
    intro he
    have hpk : p.1 ∈ CATEGORY_MAP.map Prod.fst := List.mem_map_of_mem _ hp
    have hp1eq : p.1 = stripSpaces key :=
      keyStripFact key hk p.1 hpk (by rw [he]; exact hstriplow)
    exact hstripne (by rw [← he, hp1eq])
  unfold normalizeCategory
  rw [h1, h2]

theorem C10_case_sensitive_normalization_witness :
    normalizeCategory "food" = Miscellaneous ∧
    normalizeCategory "FOOD" = Miscellaneous :=
  ⟨C10_case_sensitive_normalization "food" "Food" (by decide) (by decide) (by decide),
   C10_case_sensitive_normalization "FOOD" "Food" (by decide) (by decide) (by decide)⟩

/-! ## C5 — week identifier -/

/-- C5 (counterexample): the claim says `getCurrentWeekId` uses the ISO
week-based year for every date.  2025-12-29 lies in ISO week 1 of 2026,
yet the source renders `"2025-W1"` (calendar year), not `"2026-W1"`. -/
theorem C5_counterexample_calendar_year :
    getCurrentWeekId ⟨2025, 12, 29⟩ = "2025-W1" ∧
    isoWeekIdentifierSpec ⟨2025, 12, 29⟩ = "2026-W1" ∧
    getCurrentWeekId ⟨2025, 12, 29⟩ ≠ isoWeekIdentifierSpec ⟨2025, 12, 29⟩ := by
  refine ⟨by decide, by decide, by decide⟩

/-- C5 (amended): `getCurrentWeekId` returns
`"{calendarYear}-W{ISOWeekNumber}"`; it agrees with the spec's ISO
week-based identifier precisely on dates whose ISO week-year equals their
calendar year, and differs on late-December / early-January dates whose
ISO week belongs to the adjacent year. -/
theorem C5_amended_week_identifier (dt : DateD) (h : isoWeekYear dt = dt.year) :
    getCurrentWeekId dt = isoWeekIdentifierSpec dt := by
  unfold getCurrentWeekId isoWeekIdentifierSpec
  rw [h]

theorem C5_amended_week_identifier_witness :
    isoWeekYear ⟨2025, 6, 15⟩ = (2025 : Int) ∧
    getCurrentWeekId ⟨2025, 6, 15⟩ = isoWeekIdentifierSpec ⟨2025, 6, 15⟩ :=
  ⟨by decide, C5_amended_week_identifier ⟨2025, 6, 15⟩ (by decide)⟩

/-! ## C6 — savings-target invariant at edit time -/

/-- C6 (counterexample): completing `BudgetSetup` with income 100, weekly
limit 10 and savings target 500 succeeds (`isValid` checks only
`incomeNum > 0 && weeklyLimit > 0`) and yields a state violating
`savingsTarget ≤ monthlyIncome`. -/
theorem C6_counterexample_setup_unchecked :
    (budgetSetupSubmit (some 100) 10 0 500).map
        (fun b => (b.allocations.savingsTarget, b.monthlyIncome,
          decide (b.allocations.savingsTarget ≤ b.monthlyIncome)))
      = some (500, 100, false) := by
  decide

/-- C6 (amended): the Dashboard inline edit does enforce the invariant —
starting from a state with `savingsTarget ≤ monthlyIncome`, any
`handleSaveEdit` preserves it, and a savings edit above the income is
rejected with the whole prior state retained; the `BudgetSetup` completion
path performs no such check (see the counterexample). -/
theorem C6_amended_dashboard_edit_invariant (b : BudgetState) (k : EditKey) (v : Option ℚ)
    (hinv : b.allocations.savingsTarget ≤ b.monthlyIncome) :
    (handleSaveEdit b k v).allocations.savingsTarget
        ≤ (handleSaveEdit b k v).monthlyIncome ∧
    (∀ q, v = some q → q > b.monthlyIncome → handleSaveEdit b .SavingsE v = b) := by
  constructor
  · unfold handleSaveEdit
    cases v with
    | none => exact hinv
    | some q =>
      simp only
      split_ifs with h1 h2
      · exact hinv
      · cases k with
        | Weekly => simpa using hinv
        | Monthly => simpa using hinv
        | SavingsE =>
          simp only [not_and, not_lt] at h2
          simpa using h2 trivial
      · exact hinv
  · intro q hq hgt
    subst hq
    unfold handleSaveEdit
    simp [hgt]

theorem C6_amended_dashboard_edit_invariant_witness :
    ((⟨100, ⟨0, 0, 50, []⟩, true⟩ : BudgetState).allocations.savingsTarget
        ≤ (⟨100, ⟨0, 0, 50, []⟩, true⟩ : BudgetState).monthlyIncome) ∧
    handleSaveEdit ⟨100, ⟨0, 0, 50, []⟩, true⟩ .SavingsE (some 200)
        = ⟨100, ⟨0, 0, 50, []⟩, true⟩ :=
  ⟨by norm_num,
   (C6_amended_dashboard_edit_invariant ⟨100, ⟨0, 0, 50, []⟩, true⟩ .SavingsE (some 200)
      (by norm_num)).2 200 rfl (by norm_num)⟩

/-! ## C7 — AI adapter amount filter -/

/-- C7 (counterexample): a candidate whose amount field is absent
(`undefined`) is NOT dropped — the filter is `e.amount !== null`, so the
adapter returns it with the amount still absent. -/
theorem C7_counterexample_absent_amount_kept :
    parseExpenseWithAI "zomato 200" [⟨JsNum.undef, some "Food", some "lunch", none⟩]
      = [⟨JsNum.undef, Groceries, "lunch", none⟩] := by
  decide

/-- C7 (amended): every element of the adapter's result has a non-`null`
amount (candidates with a `null` amount are dropped), but a candidate
whose amount field is absent (`undefined`) is kept, its amount staying
absent. -/
theorem C7_amended_null_amount_dropped (input : String) (expenses : List RawAIExpense) :
    ∀ e ∈ parseExpenseWithAI input expenses, e.amount ≠ JsNum.jsNull := by
  intro e he
  unfold parseExpenseWithAI at he
  split at he
  · simp at he
  · unfold aiNormalizeItems at he
    have h2 := (List.mem_filter.mp he).2
    simpa using h2

theorem C7_amended_null_amount_dropped_witness :
    (⟨JsNum.val 5, Groceries, "x", none⟩ : AIExpense).amount ≠ JsNum.jsNull :=
  C7_amended_null_amount_dropped "abcd" [⟨JsNum.val 5, some "Food", some "x", none⟩]
    ⟨JsNum.val 5, Groceries, "x", none⟩ (by decide)

/-! ## C8 — archiver idempotence -/

/-- C8: a first `TimeService.init` run advances the meta document to the
current week/month identifiers; a second run under unchanged identifiers
changes nothing — in particular it writes no additional snapshot. -/
theorem C8_archiver_idempotent (store : HistoryStore) (userId : String)
    (txs txs2 : List Transaction) (now now2 : DateD) (hu : ¬ userId = "")
    (hw : getCurrentWeekId now2 = getCurrentWeekId now)
    (hm : getCurrentMonthId now2 = getCurrentMonthId now) :
    (timeServiceInit store userId txs now).meta
        = some ⟨getCurrentWeekId now, getCurrentMonthId now⟩ ∧
    timeServiceInit (timeServiceInit store userId txs now) userId txs2 now2
        = timeServiceInit store userId txs now := by
  have hmeta : (timeServiceInit store userId txs now).meta
      = some ⟨getCurrentWeekId now, getCurrentMonthId now⟩ := by
    unfold timeServiceInit
    rw [if_neg hu]
    cases hsm : store.meta with
    | none => rfl
    | some meta =>
      obtain ⟨mw, mm⟩ := meta
      by_cases h1 : mw = getCurrentWeekId now <;>
        by_cases h2 : mm = getCurrentMonthId now <;>
          simp [hsm, h1, h2]
  have hstep : ∀ st : HistoryStore,
      st.meta = some ⟨getCurrentWeekId now2, getCurrentMonthId now2⟩ →
      timeServiceInit st userId txs2 now2 = st := by
    intro st hst
    unfold timeServiceInit
    rw [if_neg hu, hst]
    simp
  exact ⟨hmeta, hstep _ (by rw [hmeta, hw, hm])⟩

theorem C8_archiver_idempotent_witness :
    ¬ ("u" : String) = "" ∧
    (timeServiceInit ⟨none, [], []⟩ "u" [] ⟨2025, 6, 15⟩).meta
        = some ⟨"2025-W24", "2025-06"⟩ ∧
    timeServiceInit (timeServiceInit ⟨none, [], []⟩ "u" [] ⟨2025, 6, 15⟩) "u" [] ⟨2025, 6, 15⟩
        = timeServiceInit ⟨none, [], []⟩ "u" [] ⟨2025, 6, 15⟩ := by
  have h := C8_archiver_idempotent ⟨none, [], []⟩ "u" [] [] ⟨2025, 6, 15⟩ ⟨2025, 6, 15⟩
    (by decide) rfl rfl
  exact ⟨by decide, by rw [h.1]; decide, h.2⟩

/-! ## C9 — Dashboard monthly figure vs alert-engine monthly spend -/

/-- C9: the Dashboard's Monthly Expenses figure sums every Monthly-bucket
transaction over the whole history (no current-month filter), whereas the
alert engine's `monthlyBucketTotal` restricts to the current calendar
month; the dashboard figure exceeds it by exactly the Monthly-bucket spend
dated outside the current month. -/
theorem C9_dashboard_monthly_alltime (txs : List Transaction) (now : DateD) :
    dashboardMonthlySpent txs
        = ((txs.filter (fun t =>
              decide (CATEGORY_BUCKET_MAP t.category = BudgetBucket.Monthly))).map
            (fun t => t.amount)).sum ∧
    monthlyBucketTotal txs now
        = ((txs.filter (fun t => inCurrentMonth t.date now &&
              decide (CATEGORY_BUCKET_MAP t.category = BudgetBucket.Monthly))).map
            (fun t => t.amount)).sum ∧
    dashboardMonthlySpent txs
        = monthlyBucketTotal txs now
          + ((txs.filter (fun t => !inCurrentMonth t.date now &&
                decide (CATEGORY_BUCKET_MAP t.category = BudgetBucket.Monthly))).map
              (fun t => t.amount)).sum := by
  have h1 : dashboardMonthlySpent txs
      = ((txs.filter (fun t =>
            decide (CATEGORY_BUCKET_MAP t.category = BudgetBucket.Monthly))).map
          (fun t => t.amount)).sum := by
    unfold dashboardMonthlySpent
    rw [foldl_add_amounts]
    ring
  have h2 : monthlyBucketTotal txs now
      = ((txs.filter (fun t => inCurrentMonth t.date now &&
            decide (CATEGORY_BUCKET_MAP t.category = BudgetBucket.Monthly))).map
          (fun t => t.amount)).sum := by
    unfold monthlyBucketTotal
    rw [foldl_add_amounts]
    ring
  refine ⟨h1, h2, ?_⟩
  rw [h1, h2,
    filter_sum_split txs (fun t => decide (CATEGORY_BUCKET_MAP t.category = BudgetBucket.Monthly))
      (fun t => inCurrentMonth t.date now)]

end SmartSpend
